import Mathlib

/-!
Verification development for the seedrcc client library.

The development shallowly embeds the parts of the library that the
specification's testable properties talk about:

* `src/seedrcc/token.py` — the `Token` dataclass and its serialization
  (`to_dict` / `to_json` / `to_base64`) and deserialization
  (`from_dict` / `from_json` / `from_base64`), together with models of the
  pieces of the Python standard library they use: `json.dumps` /
  `json.loads` (with its default `ensure_ascii=True` escaping),
  `base64.b64encode` / `b64decode` (legacy, non-strict mode), and UTF-8
  encoding/decoding.
* `src/seedrcc/client.py` — the authenticated request engine
  (`Seedr._api_request`), the refresh procedure
  (`Seedr._refresh_access_token`) and the low-level request helper
  (`Seedr._make_http_request`), embedded as state-passing functions over a
  scripted transport (a list of pre-determined HTTP outcomes).

Python strings are modelled as lists of Unicode code points (`List Nat`).
This is deliberate: a Python `str` may contain lone surrogate code points
(U+D800–U+DFFF), which Lean's `Char`/`String` cannot represent, and the
behaviour of `json.dumps`/`json.loads` on surrogate pairs is relevant to
the serialization round-trip law.
-/

/-- Python strings: sequences of Unicode code points (surrogates allowed). -/
abbrev PyStr := List Nat

/-- Convenience: turn a Lean string literal into a `PyStr`. -/
def pys (s : String) : PyStr := s.data.map Char.toNat

/-- JSON values as produced by Python's `json` module.  Numbers are kept as
their source lexemes: no claim in this development depends on numeric
semantics of JSON numbers, only on their presence.  Objects keep their
members in source order, possibly with duplicate keys; all consumers look
keys up with last-occurrence-wins semantics, matching the Python `dict`
built by `json.loads`. -/
inductive Json where
  | null : Json
  | bool (b : Bool) : Json
  | num (lexeme : PyStr) : Json
  | str (s : PyStr) : Json
  | arr (elements : List Json) : Json
  | obj (members : List (PyStr × Json)) : Json

mutual

/-- Decidable equality for `Json` (hand-written: `deriving` does not handle
the nested occurrences of `List`). -/
def Json.decEq : (a b : Json) → Decidable (a = b)
  | .null, .null => .isTrue rfl
  | .bool a, .bool b =>
    if h : a = b then .isTrue (by rw [h]) else .isFalse (fun he => h (Json.bool.inj he))
  | .num a, .num b =>
    if h : a = b then .isTrue (by rw [h]) else .isFalse (fun he => h (Json.num.inj he))
  | .str a, .str b =>
    if h : a = b then .isTrue (by rw [h]) else .isFalse (fun he => h (Json.str.inj he))
  | .arr xs, .arr ys =>
    match Json.decEqList xs ys with
    | .isTrue h => .isTrue (by rw [h])
    | .isFalse h => .isFalse (fun he => h (Json.arr.inj he))
  | .obj xs, .obj ys =>
    match Json.decEqMembers xs ys with
    | .isTrue h => .isTrue (by rw [h])
    | .isFalse h => .isFalse (fun he => h (Json.obj.inj he))
  | .null, .bool _ => .isFalse (fun h => nomatch h)
  | .null, .num _ => .isFalse (fun h => nomatch h)
  | .null, .str _ => .isFalse (fun h => nomatch h)
  | .null, .arr _ => .isFalse (fun h => nomatch h)
  | .null, .obj _ => .isFalse (fun h => nomatch h)
  | .bool _, .null => .isFalse (fun h => nomatch h)
  | .bool _, .num _ => .isFalse (fun h => nomatch h)
  | .bool _, .str _ => .isFalse (fun h => nomatch h)
  | .bool _, .arr _ => .isFalse (fun h => nomatch h)
  | .bool _, .obj _ => .isFalse (fun h => nomatch h)
  | .num _, .null => .isFalse (fun h => nomatch h)
  | .num _, .bool _ => .isFalse (fun h => nomatch h)
  | .num _, .str _ => .isFalse (fun h => nomatch h)
  | .num _, .arr _ => .isFalse (fun h => nomatch h)
  | .num _, .obj _ => .isFalse (fun h => nomatch h)
  | .str _, .null => .isFalse (fun h => nomatch h)
  | .str _, .bool _ => .isFalse (fun h => nomatch h)
  | .str _, .num _ => .isFalse (fun h => nomatch h)
  | .str _, .arr _ => .isFalse (fun h => nomatch h)
  | .str _, .obj _ => .isFalse (fun h => nomatch h)
  | .arr _, .null => .isFalse (fun h => nomatch h)
  | .arr _, .bool _ => .isFalse (fun h => nomatch h)
  | .arr _, .num _ => .isFalse (fun h => nomatch h)
  | .arr _, .str _ => .isFalse (fun h => nomatch h)
  | .arr _, .obj _ => .isFalse (fun h => nomatch h)
  | .obj _, .null => .isFalse (fun h => nomatch h)
  | .obj _, .bool _ => .isFalse (fun h => nomatch h)
  | .obj _, .num _ => .isFalse (fun h => nomatch h)
  | .obj _, .str _ => .isFalse (fun h => nomatch h)
  | .obj _, .arr _ => .isFalse (fun h => nomatch h)

/-- Decidable equality for lists of `Json`. -/
def Json.decEqList : (a b : List Json) → Decidable (a = b)
  | [], [] => .isTrue rfl
  | [], _ :: _ => .isFalse (fun h => nomatch h)
  | _ :: _, [] => .isFalse (fun h => nomatch h)
  | x :: xs, y :: ys =>
    match Json.decEq x y with
    | .isTrue h1 =>
      match Json.decEqList xs ys with
      | .isTrue h2 => .isTrue (by rw [h1, h2])
      | .isFalse h2 => .isFalse (fun he => h2 (List.cons.inj he).2)
    | .isFalse h1 => .isFalse (fun he => h1 (List.cons.inj he).1)

/-- Decidable equality for JSON object member lists. -/
def Json.decEqMembers : (a b : List (PyStr × Json)) → Decidable (a = b)
  | [], [] => .isTrue rfl
  | [], _ :: _ => .isFalse (fun h => nomatch h)
  | _ :: _, [] => .isFalse (fun h => nomatch h)
  | (k1, v1) :: xs, (k2, v2) :: ys =>
    if hk : k1 = k2 then
      match Json.decEq v1 v2 with
      | .isTrue hv =>
        match Json.decEqMembers xs ys with
        | .isTrue h2 => .isTrue (by rw [hk, hv, h2])
        | .isFalse h2 => .isFalse (fun he => h2 (List.cons.inj he).2)
      | .isFalse hv =>
        .isFalse (fun he => hv (congrArg Prod.snd (List.cons.inj he).1))
    else .isFalse (fun he => hk (congrArg Prod.fst (List.cons.inj he).1))

end

instance : DecidableEq Json := Json.decEq

/-- Is this JSON value the `null` (Python `None`) value? -/
def Json.isNull : Json → Bool
  | .null => true
  | _ => false

/-- Is this JSON value an object (Python `dict`)? -/
def Json.isObj : Json → Bool
  | .obj _ => true
  | _ => false

/-- Key lookup in a JSON object member list with Python-`dict` semantics:
the last occurrence of a key wins. -/
def jsonLookup (kvs : List (PyStr × Json)) (k : PyStr) : Option Json :=
  kvs.reverse.lookup k

/-- Does the member list carry the given key? -/
def hasKeyKV (kvs : List (PyStr × Json)) (k : PyStr) : Bool :=
  kvs.any (fun p => p.1 == k)

/-- Python `d.get(k, default)` on a decoded JSON value: objects are looked
up by key, everything else yields the default (the engine always guards
this with `isinstance(data, dict)`). -/
def Json.getD (j : Json) (k : PyStr) (default : Json) : Json :=
  match j with
  | .obj kvs => (jsonLookup kvs k).getD default
  | _ => default

/-- Python `d.get(k)` on a decoded JSON object. -/
def Json.get (j : Json) (k : PyStr) : Option Json :=
  match j with
  | .obj kvs => jsonLookup kvs k
  | _ => none

/-- Python truthiness of a JSON-shaped value (`if value:`).  A numeric
lexeme is falsy when its mantissa (the part before any exponent) has no
nonzero digit, matching `0`, `-0.0`, `0e5`, … -/
def Json.truthy : Json → Bool
  | .null => false
  | .bool b => b
  | .str s => s ≠ []
  | .arr xs => xs ≠ []
  | .obj kvs => kvs ≠ []
  | .num lex =>
    let mantissa := lex.takeWhile (fun c => c ≠ 101 ∧ c ≠ 69)
    mantissa.any (fun c => 49 ≤ c ∧ c ≤ 57)

/-- The `Token` dataclass of `src/seedrcc/token.py`.  Python's dataclass
fields carry no runtime type checks, so the fields are JSON-shaped values;
`Json.null` is Python's `None` (the default for the two optional fields).
A token built from typed code always has `Json.str` in `access_token`. -/
structure Token where
  access_token : Json
  refresh_token : Json := Json.null
  device_code : Json := Json.null
deriving DecidableEq

/-- Build a `Token` from Lean-side optional strings (the shape the
dataclass annotations promise). -/
def optToJson : Option PyStr → Json
  | none => Json.null
  | some s => Json.str s

/-- A `Token` whose fields respect the dataclass annotations:
`access_token` a string, the other two optional strings. -/
def Token.ofStrings (a : PyStr) (rt dc : Option PyStr) : Token :=
  ⟨Json.str a, optToJson rt, optToJson dc⟩

/-- `Token.to_dict`: `asdict` with a factory that drops `None` fields,
keeping dataclass field order. -/
def Token.to_dict (t : Token) : List (PyStr × Json) :=
  ([(pys "access_token", t.access_token),
    (pys "refresh_token", t.refresh_token),
    (pys "device_code", t.device_code)]).filter (fun p => !p.2.isNull)

/-- Lower-case hexadecimal digit, as used by Python's `\uXXXX` escapes. -/
def hexDigitLower (n : Nat) : Nat := if n < 10 then 48 + n else 87 + n

/-- Four-digit lower-case hex rendering of `n` (`n < 65536`). -/
def toHex4 (n : Nat) : PyStr :=
  [hexDigitLower (n / 4096 % 16), hexDigitLower (n / 256 % 16),
   hexDigitLower (n / 16 % 16), hexDigitLower (n % 16)]

/-- Escape one code point the way `json.dumps` does with its default
`ensure_ascii=True`: printable ASCII other than quote and backslash is
literal, the short escapes cover backspace/tab/newline/formfeed/return,
every other code point below U+10000 becomes `\uXXXX` (including lone
surrogates), and astral code points become a surrogate pair of escapes. -/
def escChar (c : Nat) : PyStr :=
  if c = 34 then [92, 34]
  else if c = 92 then [92, 92]
  else if 32 ≤ c ∧ c ≤ 126 then [c]
  else if c = 8 then [92, 98]
  else if c = 9 then [92, 116]
  else if c = 10 then [92, 110]
  else if c = 12 then [92, 102]
  else if c = 13 then [92, 114]
  else if c < 65536 then 92 :: 117 :: toHex4 c
  else 92 :: 117 :: toHex4 (55296 + (c - 65536) / 1024)
       ++ 92 :: 117 :: toHex4 (56320 + (c - 65536) % 1024)

/-- Escape the body of a JSON string. -/
def escString (s : PyStr) : PyStr := s.foldr (fun c acc => escChar c ++ acc) []

/-- A JSON string literal: quoted escaped body. -/
def encStr (s : PyStr) : PyStr := 34 :: escString s ++ [34]

mutual

/-- `json.dumps` with default arguments: `ensure_ascii=True`, separators
`", "` and `": "`.  Numeric lexemes are emitted verbatim. -/
def Json.dumps : Json → PyStr
  | .null => pys "null"
  | .bool true => pys "true"
  | .bool false => pys "false"
  | .num lex => lex
  | .str s => encStr s
  | .arr xs => 91 :: Json.dumpsElems xs ++ [93]
  | .obj kvs => 123 :: Json.dumpsMembers kvs ++ [125]

/-- Array elements joined by `", "`. -/
def Json.dumpsElems : List Json → PyStr
  | [] => []
  | [x] => Json.dumps x
  | x :: y :: xs => Json.dumps x ++ pys ", " ++ Json.dumpsElems (y :: xs)

/-- Object members rendered `"key": value` and joined by `", "`. -/
def Json.dumpsMembers : List (PyStr × Json) → PyStr
  | [] => []
  | [(k, v)] => encStr k ++ pys ": " ++ Json.dumps v
  | (k, v) :: m :: kvs =>
    encStr k ++ pys ": " ++ Json.dumps v ++ pys ", " ++ Json.dumpsMembers (m :: kvs)

end

/-- `Token.to_json`: serialize the non-`None` fields as a JSON object. -/
def Token.to_json (t : Token) : PyStr := Json.dumps (Json.obj t.to_dict)

/-- `Token.__str__`: returns the (unmasked) JSON representation. -/
def Token.strPy (t : Token) : PyStr := t.to_json

/-- The `_mask` helper inside `Token.__repr__`: `None` prints as `"None"`,
a string keeps its first five code points followed by `"****"`.  A value
of any other type would make the Python slice `value[:5]` raise
`TypeError`; that case is outside the typed model and yields `none`. -/
def Token.maskSecret : Json → Option PyStr
  | .null => some (pys "None")
  | .str s => some (s.take 5 ++ pys "****")
  | _ => none

/-- `Token.__repr__`: the masked representation. -/
def Token.reprPy (t : Token) : Option PyStr :=
  match Token.maskSecret t.access_token, Token.maskSecret t.refresh_token,
        Token.maskSecret t.device_code with
  | some m1, some m2, some m3 =>
    some (pys "Token(access_token=" ++ m1 ++ pys ", refresh_token=" ++ m2 ++
          pys ", device_code=" ++ m3 ++ pys ")")
  | _, _, _ => none

/-- Substring test on Python strings (used to state the secret-leak
properties). -/
def strContains (hay needle : PyStr) : Bool :=
  (List.range (hay.length + 1)).any (fun i => needle.isPrefixOf (hay.drop i))

/-! ## The authenticated request engine (`src/seedrcc/client.py`)

The transport (`httpx.Client.request`) is modelled as a script: a list of
pre-determined outcomes, consumed one per request.  Every attempted request
is logged in order; the engine's control flow is a direct transcription of
`Seedr._api_request`, `Seedr._refresh_access_token` and
`Seedr._make_http_request`.  The mutual recursion between `_api_request`
and `_refresh_access_token` is bounded by a fuel parameter; Python bounds
the same recursion by its interpreter recursion limit (`RecursionError`),
which is what fuel exhaustion maps to. -/

/-- URL constants from `src/seedrcc/_constants.py`. -/
def RESOURCE_URL : PyStr := pys "https://www.seedr.cc/oauth_test/resource.php"

/-- The OAuth token endpoint. -/
def TOKEN_URL : PyStr := pys "https://www.seedr.cc/oauth_test/token.php"

/-- The device-flow authorize endpoint. -/
def DEVICE_AUTHORIZE_URL : PyStr := pys "https://www.seedr.cc/api/device/authorize"

/-- Client id used for device-code flows. -/
def DEVICE_CLIENT_ID : PyStr := pys "seedr_xbmc"

/-- Client id used for password/refresh-token flows. -/
def PSWRD_CLIENT_ID : PyStr := pys "seedr_chrome"

/-- One scripted transport outcome: an HTTP response with a status code
and decoded JSON body, or a connection-level failure
(`httpx.RequestError`). -/
inductive Resp where
  | http (code : Nat) (body : Json) : Resp
  | netErr : Resp

/-- The exceptions of `src/seedrcc/exceptions.py` that the engine can
raise, plus an opaque payload for an exception raised by the user's
`on_token_refresh` callback (which the engine never catches) and a marker
for exhausting the model's recursion fuel (Python: `RecursionError`). -/
inductive PyExn where
  | apiError (status : Option Nat) (msg : Json) : PyExn
  | serverError (status : Nat) : PyExn
  | authError (msg : PyStr) : PyExn
  | networkError : PyExn
  | cbError (payload : PyStr) : PyExn
  | recursionError : PyExn
deriving DecidableEq

instance exceptDecEq {ε α : Type} [DecidableEq ε] [DecidableEq α] :
    DecidableEq (Except ε α) := fun a b =>
  match a, b with
  | .ok x, .ok y =>
    if h : x = y then .isTrue (by rw [h]) else .isFalse (fun he => h (by injection he))
  | .error x, .error y =>
    if h : x = y then .isTrue (by rw [h]) else .isFalse (fun he => h (by injection he))
  | .ok _, .error _ => .isFalse (fun h => nomatch h)
  | .error _, .ok _ => .isFalse (fun h => nomatch h)

/-- A log entry for one attempted transport request. -/
structure CallRecord where
  method : PyStr
  url : PyStr
  params : List (PyStr × Json)
  body : List (PyStr × Json)
deriving DecidableEq

/-- Client-side state threaded through a run: the remaining script, the
log of attempted requests, the held token, the optional refresh callback
(returning `Except payload Unit` so that a raising callback can be
modelled) and the log of tokens the callback was invoked with. -/
structure EngineState where
  script : List Resp
  calls : List CallRecord
  token : Token
  cb : Option (Token → Except PyStr Unit)
  cbLog : List Token

/-- Python `dict.__setitem__` on a parameter mapping kept as an ordered
association list: overwrite in place if present, append otherwise. -/
def setParam (params : List (PyStr × Json)) (k : PyStr) (v : Json) :
    List (PyStr × Json) :=
  if params.any (fun p => p.1 == k) then
    params.map (fun p => if p.1 == k then (p.1, v) else p)
  else params ++ [(k, v)]

/-- `Seedr._make_http_request`: perform one scripted request.  The request
is logged unconditionally (Python has issued it before inspecting the
response).  `response.raise_for_status()` raises for status codes
400–599; 5xx becomes `ServerError`, other error statuses `APIError`
carrying the response; connection errors become `NetworkError`.  An
exhausted script is modelled as a connection failure (the theorems always
supply scripts of exactly the consumed length). -/
def makeHttpRequest (s : EngineState) (method url : PyStr)
    (params : List (PyStr × Json)) (body : List (PyStr × Json)) :
    EngineState × Except PyExn Json :=
  let s1 := { s with script := s.script.tail,
                     calls := s.calls ++ [⟨method, url, params, body⟩] }
  match s.script.head? with
  | none => (s1, .error .networkError)
  | some .netErr => (s1, .error .networkError)
  | some (.http code bodyJson) =>
    if 400 ≤ code ∧ code ≤ 599 then
      if 500 ≤ code then (s1, .error (.serverError code))
      else (s1, .error (.apiError (some code) (Json.str (pys "API error"))))
    else (s1, .ok bodyJson)

/-- The expiry sentinel test of `_api_request`:
`isinstance(data, dict) and data.get("error") == "expired_token"`. -/
def isExpired (data : Json) : Bool :=
  match data with
  | .obj kvs => jsonLookup kvs (pys "error") == some (Json.str (pys "expired_token"))
  | _ => false

/-- The in-body failure test of `_api_request`:
`isinstance(data, dict) and data.get("result", True) is not True`.
Note the identity comparison: any value other than the boolean `True`
(including a truthy `1`) counts as a failure indicator. -/
def resultNotTrue (data : Json) : Bool :=
  match data with
  | .obj kvs => !((jsonLookup kvs (pys "result")).getD (Json.bool true) == Json.bool true)
  | _ => false

/-- `raise APIError(data.get("error", "Unknown API error"))` — the body
error with no attached HTTP response. -/
def resultCheck (data : Json) : Except PyExn Json :=
  if resultNotTrue data then
    .error (.apiError none (data.getD (pys "error") (Json.str (pys "Unknown API error"))))
  else .ok data

/-- The `except APIError` clause wrapping the whole body of
`_api_request`: an `APIError` whose attached response has status 401 is
re-raised as `AuthenticationError("Invalid or expired token.")`; every
other outcome passes through unchanged. -/
def wrap401 : Except PyExn Json → Except PyExn Json
  | .error (.apiError (some n) m) =>
    if n = 401 then .error (.authError (pys "Invalid or expired token."))
    else .error (.apiError (some n) m)
  | r => r

/-- `_utils.prepare_refresh_token_payload`. -/
def prepare_refresh_token_payload (refresh_token : Json) : List (PyStr × Json) :=
  [(pys "grant_type", Json.str (pys "refresh_token")),
   (pys "refresh_token", refresh_token),
   (pys "client_id", Json.str PSWRD_CLIENT_ID)]

/-- `_utils.prepare_device_code_params`. -/
def prepare_device_code_params (device_code : Json) : List (PyStr × Json) :=
  [(pys "client_id", Json.str DEVICE_CLIENT_ID),
   (pys "device_code", device_code)]

/-- The type of one authenticated request step (the shape of
`_api_request`): state, HTTP method, `func` name, optional URL override,
caller params, body fields. -/
abbrev RequestFn :=
  EngineState → PyStr → PyStr → Option PyStr → List (PyStr × Json) →
  List (PyStr × Json) → EngineState × Except PyExn Json

/-- `Seedr._refresh_access_token`, parameterized by the `_api_request` it
calls back into (the two methods are mutually recursive in the source;
here the knot is tied by `apiRequest`'s fuel): pick the refresh credential
(a truthy `refresh_token` takes precedence over a truthy `device_code`;
neither is a hard `AuthenticationError`), perform the exchange through
`_api_request`, require an `access_token` key in the response, install the
new token (keeping the old `refresh_token` and `device_code`), then invoke
the refresh callback — whose exception, if any, is not caught. -/
def refreshWith (doRequest : RequestFn) (s : EngineState) :
    EngineState × Except PyExn Json :=
  let attempt : Option (EngineState × Except PyExn Json) :=
    if s.token.refresh_token.truthy then
      some (doRequest s (pys "post") [] (some TOKEN_URL) []
        (prepare_refresh_token_payload s.token.refresh_token))
    else if s.token.device_code.truthy then
      some (doRequest s (pys "get") [] (some DEVICE_AUTHORIZE_URL)
        (prepare_device_code_params s.token.device_code) [])
    else none
  match attempt with
  | none =>
    (s, .error (.authError (pys "Session expired. No refresh token or device code available.")))
  | some (s2, .error e) => (s2, .error e)
  | some (s2, .ok response) =>
    match response.get (pys "access_token") with
    | none =>
      (s2, .error (.authError
        (pys "Token refresh failed. The response did not contain a new access token.")))
    | some newAccess =>
      let newToken : Token :=
        ⟨newAccess, s2.token.refresh_token, s2.token.device_code⟩
      let s3 := { s2 with token := newToken }
      match s3.cb with
      | none => (s3, .ok response)
      | some f =>
        let s4 := { s3 with cbLog := s3.cbLog ++ [s3.token] }
        match f s3.token with
        | .ok _ => (s4, .ok response)
        | .error payload => (s4, .error (.cbError payload))

/-- `Seedr._api_request`: attach the access token (unless the caller's
params already carry one) and the `func` name (when non-empty), perform
the request, on the `expired_token` sentinel refresh once and re-issue the
same request with the updated token, then apply the in-body result check;
finally the `except APIError` clause turns a 401 `APIError` into
`AuthenticationError`. -/
def apiRequest : Nat → EngineState → PyStr → PyStr → Option PyStr →
    List (PyStr × Json) → List (PyStr × Json) → EngineState × Except PyExn Json
  | 0, s, _, _, _, _, _ => (s, .error .recursionError)
  | fuel + 1, s, http_method, func, url?, params0, body =>
    let url := url?.getD RESOURCE_URL
    let params1 :=
      if params0.any (fun p => p.1 == pys "access_token") then params0
      else params0 ++ [(pys "access_token", s.token.access_token)]
    let params :=
      if func ≠ [] then setParam params1 (pys "func") (Json.str func) else params1
    let (s1, r1) := makeHttpRequest s http_method url params body
    let outcome : EngineState × Except PyExn Json :=
      match r1 with
      | .error e => (s1, .error e)
      | .ok data =>
        if isExpired data then
          match refreshWith (apiRequest fuel) s1 with
          | (s2, .error e) => (s2, .error e)
          | (s2, .ok _) =>
            let params2 := setParam params (pys "access_token") s2.token.access_token
            let (s3, r2) := makeHttpRequest s2 http_method url params2 body
            match r2 with
            | .error e => (s3, .error e)
            | .ok data2 => (s3, resultCheck data2)
        else (s1, resultCheck data)
    (outcome.1, wrap401 outcome.2)

/-- `Seedr._refresh_access_token` proper: the manual entry point
(`Seedr.refresh_token`) with a given recursion budget for the underlying
`_api_request`. -/
def refreshAccessToken (fuel : Nat) (s : EngineState) :
    EngineState × Except PyExn Json :=
  refreshWith (apiRequest fuel) s

/-! ## `json.loads` (deserialization)

A model of Python's `json.loads` with default arguments: recursive-descent
over the code points, bounded by a fuel parameter large enough for any
input (each recursive step is paid for by input characters; Python bounds
the same recursion by its interpreter recursion limit).  Strings follow
`py_scanstring`/`scanstring_unicode` exactly, including the combining of a
`\uD800`–`\uDBFF` escape immediately followed by a `\uDC00`–`\uDFFF`
escape into one astral code point.  The string scanner carries its own
fuel, always supplied as one more than the input length; every recursive
step of the scanner consumes at least one input code point, so this fuel
can never run out.  The one deliberate deviation: numeric
literals are kept as lexemes (`Json.num`), since no claim depends on
numeric semantics. -/

/-- One hexadecimal digit (both cases accepted, as in `json.loads`). -/
def fromHexDigit (c : Nat) : Option Nat :=
  if 48 ≤ c ∧ c ≤ 57 then some (c - 48)
  else if 97 ≤ c ∧ c ≤ 102 then some (c - 87)
  else if 65 ≤ c ∧ c ≤ 70 then some (c - 55)
  else none

/-- Four hex digits as in a `\uXXXX` escape. -/
def hexv4 (a b g d : Nat) : Option Nat :=
  match fromHexDigit a, fromHexDigit b, fromHexDigit g, fromHexDigit d with
  | some x, some y, some z, some w => some (x * 4096 + y * 256 + z * 16 + w)
  | _, _, _, _ => none

/-- Prepend a decoded code point to a string-scan result. -/
def consStr (c : Nat) : Option (PyStr × List Nat) → Option (PyStr × List Nat)
  | none => none
  | some (s, r) => some (c :: s, r)

/-- The body scanner of a JSON string (`py_scanstring`, after the opening
quote): literal code points above U+001F, the eight short escapes,
`\uXXXX` escapes, and the surrogate-pair combination.  A high-surrogate
escape immediately followed by a low-surrogate escape yields the combined
astral code point; otherwise a surrogate escape yields the lone surrogate
code point, exactly as `chr(uni)` does in Python.  Unterminated strings,
control characters, invalid escapes and invalid hex digits fail. -/
def parseStr : Nat → List Nat → Option (PyStr × List Nat)
  | 0, _ => none
  | _, [] => none
  | fuel + 1, c :: rest =>
    if c = 34 then some ([], rest)
    else if c = 92 then
      match rest with
      | 34 :: r => consStr 34 (parseStr fuel r)
      | 92 :: r => consStr 92 (parseStr fuel r)
      | 47 :: r => consStr 47 (parseStr fuel r)
      | 98 :: r => consStr 8 (parseStr fuel r)
      | 102 :: r => consStr 12 (parseStr fuel r)
      | 110 :: r => consStr 10 (parseStr fuel r)
      | 114 :: r => consStr 13 (parseStr fuel r)
      | 116 :: r => consStr 9 (parseStr fuel r)
      | 117 :: a :: b :: g :: d :: r2 =>
        match hexv4 a b g d with
        | none => none
        | some u =>
          if 55296 ≤ u ∧ u ≤ 56319 then
            match r2 with
            | 92 :: 117 :: a2 :: b2 :: g2 :: d2 :: r4 =>
              match hexv4 a2 b2 g2 d2 with
              | none => none
              | some u2 =>
                if 56320 ≤ u2 ∧ u2 ≤ 57343 then
                  consStr (65536 + (u - 55296) * 1024 + (u2 - 56320)) (parseStr fuel r4)
                else consStr u (parseStr fuel r2)
            | _ => consStr u (parseStr fuel r2)
          else consStr u (parseStr fuel r2)
      | _ => none
    else if c < 32 then none
    else consStr c (parseStr fuel rest)

/-- JSON insignificant whitespace (space, tab, newline, return). -/
def skipWs (cs : List Nat) : List Nat :=
  cs.dropWhile (fun c => c == 32 || c == 9 || c == 10 || c == 13)

/-- A decimal digit. -/
def isDigit (c : Nat) : Bool := 48 ≤ c && c ≤ 57

/-- The integer part of `json`'s NUMBER_RE: `0` or a nonzero digit
followed by digits. -/
def lexInt (cs : List Nat) : Option (PyStr × List Nat) :=
  match cs with
  | 48 :: rest => some ([48], rest)
  | c :: rest =>
    if 49 ≤ c ∧ c ≤ 57 then
      some (c :: rest.takeWhile isDigit, rest.dropWhile isDigit)
    else none
  | [] => none

/-- The optional fraction part: `.` followed by one or more digits. -/
def lexFrac (cs : List Nat) : PyStr × List Nat :=
  match cs with
  | 46 :: rest =>
    match rest.takeWhile isDigit with
    | [] => ([], cs)
    | ds => (46 :: ds, rest.dropWhile isDigit)
  | _ => ([], cs)

/-- The optional exponent part: `e`/`E`, optional sign, one or more
digits. -/
def lexExp (cs : List Nat) : PyStr × List Nat :=
  match cs with
  | e :: rest =>
    if e = 101 ∨ e = 69 then
      match rest with
      | s :: rest2 =>
        if s = 43 ∨ s = 45 then
          match rest2.takeWhile isDigit with
          | [] => ([], cs)
          | ds => (e :: s :: ds, rest2.dropWhile isDigit)
        else
          match rest.takeWhile isDigit with
          | [] => ([], cs)
          | ds => (e :: ds, rest.dropWhile isDigit)
      | [] => ([], cs)
    else ([], cs)
  | [] => ([], cs)

/-- A JSON number lexeme per `json`'s NUMBER_RE (optional minus, integer
part, optional fraction, optional exponent). -/
def parseNum (cs : List Nat) : Option (PyStr × List Nat) :=
  match cs with
  | 45 :: rest =>
    match lexInt rest with
    | none => none
    | some (ip, r1) =>
      let (fp, r2) := lexFrac r1
      let (ep, r3) := lexExp r2
      some (45 :: ip ++ fp ++ ep, r3)
  | _ =>
    match lexInt cs with
    | none => none
    | some (ip, r1) =>
      let (fp, r2) := lexFrac r1
      let (ep, r3) := lexExp r2
      some (ip ++ fp ++ ep, r3)

mutual

/-- `scan_once`: one JSON value at the head of the input (no leading
whitespace, as in Python's scanner — containers and `loads` skip
whitespace before calling it).  `NaN`, `Infinity` and `-Infinity` are
accepted, as Python does by default. -/
def parseValue : Nat → List Nat → Option (Json × List Nat)
  | 0, _ => none
  | fuel + 1, cs =>
    match cs with
    | 34 :: rest => (parseStr (rest.length + 1) rest).map (fun p => (Json.str p.1, p.2))
    | 123 :: rest => parseObj fuel rest
    | 91 :: rest => parseArr fuel rest
    | 110 :: 117 :: 108 :: 108 :: rest => some (Json.null, rest)
    | 116 :: 114 :: 117 :: 101 :: rest => some (Json.bool true, rest)
    | 102 :: 97 :: 108 :: 115 :: 101 :: rest => some (Json.bool false, rest)
    | 78 :: 97 :: 78 :: rest => some (Json.num (pys "NaN"), rest)
    | 73 :: 110 :: 102 :: 105 :: 110 :: 105 :: 116 :: 121 :: rest =>
      some (Json.num (pys "Infinity"), rest)
    | _ =>
      match parseNum cs with
      | some (lex, rest) => some (Json.num lex, rest)
      | none =>
        match cs with
        | 45 :: 73 :: 110 :: 102 :: 105 :: 110 :: 105 :: 116 :: 121 :: rest =>
          some (Json.num (pys "-Infinity"), rest)
        | _ => none

/-- `JSONObject` after the opening brace: optional whitespace, then either
a closing brace (empty object) or the opening quote of the first key. -/
def parseObj : Nat → List Nat → Option (Json × List Nat)
  | 0, _ => none
  | fuel + 1, cs =>
    match skipWs cs with
    | 125 :: rest => some (Json.obj [], rest)
    | 34 :: rest => parseMembers fuel rest []
    | _ => none

/-- The member loop of `JSONObject`, entered just after a key's opening
quote: key string, colon, value, then comma (and the next key's opening
quote) or closing brace, with whitespace allowed between tokens. -/
def parseMembers : Nat → List Nat → List (PyStr × Json) →
    Option (Json × List Nat)
  | 0, _, _ => none
  | fuel + 1, cs, acc =>
    match parseStr (cs.length + 1) cs with
    | none => none
    | some (k, r1) =>
      match skipWs r1 with
      | 58 :: r2 =>
        match parseValue fuel (skipWs r2) with
        | none => none
        | some (v, r3) =>
          match skipWs r3 with
          | 125 :: r4 => some (Json.obj (acc ++ [(k, v)]), r4)
          | 44 :: r4 =>
            match skipWs r4 with
            | 34 :: r5 => parseMembers fuel r5 (acc ++ [(k, v)])
            | _ => none
          | _ => none
      | _ => none

/-- `JSONArray` after the opening bracket. -/
def parseArr : Nat → List Nat → Option (Json × List Nat)
  | 0, _ => none
  | fuel + 1, cs =>
    match skipWs cs with
    | 93 :: rest => some (Json.arr [], rest)
    | cs1 => parseElems fuel cs1 []

/-- The element loop of `JSONArray`. -/
def parseElems : Nat → List Nat → List Json → Option (Json × List Nat)
  | 0, _, _ => none
  | fuel + 1, cs, acc =>
    match parseValue fuel cs with
    | none => none
    | some (v, r1) =>
      match skipWs r1 with
      | 93 :: r2 => some (Json.arr (acc ++ [v]), r2)
      | 44 :: r2 => parseElems fuel (skipWs r2) (acc ++ [v])
      | _ => none

end

/-- `json.loads`: skip leading whitespace, scan one value with enough fuel
for any input, require only trailing whitespace after it. -/
def jsonLoads (s : PyStr) : Option Json :=
  match parseValue (3 * s.length + 3) (skipWs s) with
  | none => none
  | some (v, rest) => if skipWs rest = [] then some v else none

/-- The single token-serialization error type of
`src/seedrcc/exceptions.py` (`TokenError`); messages are not modelled. -/
inductive TokenError where
  | mk : TokenError
deriving DecidableEq

/-- `Token.from_dict`, i.e. `cls(**data)` guarded by
`except TypeError: raise TokenError`.  `cls(**data)` raises `TypeError`
when `data` is not a mapping, when a key other than the three field names
is present, or when the required `access_token` key is missing; otherwise
it builds the Token from the (last-occurrence-wins) key values, defaulting
the optional fields to `None`. -/
def Token.from_dict (data : Json) : Except TokenError Token :=
  match data with
  | .obj kvs =>
    if hasKeyKV kvs (pys "access_token") &&
        kvs.all (fun p => p.1 == pys "access_token" || p.1 == pys "refresh_token" ||
          p.1 == pys "device_code") then
      .ok ⟨(jsonLookup kvs (pys "access_token")).getD Json.null,
           (jsonLookup kvs (pys "refresh_token")).getD Json.null,
           (jsonLookup kvs (pys "device_code")).getD Json.null⟩
    else .error .mk
  | _ => .error .mk

/-- `Token.from_json`: `json.loads` (whose `JSONDecodeError` is re-raised
as `TokenError`) followed by `from_dict` (whose `TokenError` propagates). -/
def Token.from_json (s : PyStr) : Except TokenError Token :=
  match jsonLoads s with
  | none => .error .mk
  | some data => Token.from_dict data

/-! ## UTF-8 and base64 (used by `to_base64` / `from_base64`) -/

/-- UTF-8 encoding of one code point (`str.encode("utf-8")`): surrogates
and out-of-range values raise `UnicodeEncodeError` (here: `none`). -/
def utf8EncodeChar (c : Nat) : Option (List Nat) :=
  if c < 128 then some [c]
  else if c < 2048 then some [192 + c / 64, 128 + c % 64]
  else if 55296 ≤ c ∧ c ≤ 57343 then none
  else if c < 65536 then some [224 + c / 4096, 128 + c / 64 % 64, 128 + c % 64]
  else if c < 1114112 then
    some [240 + c / 262144, 128 + c / 4096 % 64, 128 + c / 64 % 64, 128 + c % 64]
  else none

/-- UTF-8 encoding of a Python string. -/
def utf8Encode : PyStr → Option (List Nat)
  | [] => some []
  | c :: s =>
    match utf8EncodeChar c, utf8Encode s with
    | some b, some t => some (b ++ t)
    | _, _ => none

/-- Decoding of a two-byte UTF-8 sequence: the lead byte must lie in
194..223 (so no overlong encodings) and the continuation byte in
128..191. -/
def utf8Two (b1 b2 : Nat) : Option Nat :=
  if 194 ≤ b1 ∧ b1 ≤ 223 ∧ 128 ≤ b2 ∧ b2 ≤ 191 then
    some ((b1 - 192) * 64 + (b2 - 128))
  else none

/-- Decoding of a three-byte UTF-8 sequence, with the restricted second
byte range after lead bytes 224 (no overlong) and 237 (no surrogates). -/
def utf8Three (b1 b2 b3 : Nat) : Option Nat :=
  if 224 ≤ b1 ∧ b1 ≤ 239 ∧
      (if b1 = 224 then 160 ≤ b2 ∧ b2 ≤ 191
       else if b1 = 237 then 128 ≤ b2 ∧ b2 ≤ 159
       else 128 ≤ b2 ∧ b2 ≤ 191) ∧ 128 ≤ b3 ∧ b3 ≤ 191 then
    some ((b1 - 224) * 4096 + (b2 - 128) * 64 + (b3 - 128))
  else none

/-- Decoding of a four-byte UTF-8 sequence, with the restricted second
byte range after lead bytes 240 (no overlong) and 244 (≤ U+10FFFF). -/
def utf8Four (b1 b2 b3 b4 : Nat) : Option Nat :=
  if 240 ≤ b1 ∧ b1 ≤ 244 ∧
      (if b1 = 240 then 144 ≤ b2 ∧ b2 ≤ 191
       else if b1 = 244 then 128 ≤ b2 ∧ b2 ≤ 143
       else 128 ≤ b2 ∧ b2 ≤ 191) ∧
      128 ≤ b3 ∧ b3 ≤ 191 ∧ 128 ≤ b4 ∧ b4 ≤ 191 then
    some ((b1 - 240) * 262144 + (b2 - 128) * 4096 + (b3 - 128) * 64 + (b4 - 128))
  else none

/-- Strict UTF-8 decoding (`bytes.decode("utf-8")`): rejects truncated
sequences, continuation-byte errors, overlong encodings, surrogates and
values beyond U+10FFFF (here: `none`, standing for `UnicodeDecodeError`,
a `ValueError`).  The fuel only bounds the recursion; every step consumes
at least one byte, so `length + 1` fuel never runs out. -/
def utf8DecodeF : Nat → List Nat → Option PyStr
  | 0, _ => none
  | _ + 1, [] => some []
  | f + 1, b1 :: rest =>
    if b1 < 128 then (utf8DecodeF f rest).map (fun s => b1 :: s)
    else if b1 ≤ 223 then
      match rest with
      | b2 :: rest2 =>
        match utf8Two b1 b2 with
        | some n => (utf8DecodeF f rest2).map (fun s => n :: s)
        | none => none
      | [] => none
    else if b1 ≤ 239 then
      match rest with
      | b2 :: b3 :: rest2 =>
        match utf8Three b1 b2 b3 with
        | some n => (utf8DecodeF f rest2).map (fun s => n :: s)
        | none => none
      | _ => none
    else
      match rest with
      | b2 :: b3 :: b4 :: rest2 =>
        match utf8Four b1 b2 b3 b4 with
        | some n => (utf8DecodeF f rest2).map (fun s => n :: s)
        | none => none
      | _ => none

/-- Strict UTF-8 decoding of a byte string. -/
def utf8Decode (l : List Nat) : Option PyStr := utf8DecodeF (l.length + 1) l

/-- The standard base64 alphabet. -/
def b64chr (n : Nat) : Nat :=
  if n < 26 then 65 + n
  else if n < 52 then 97 + (n - 26)
  else if n < 62 then 48 + (n - 52)
  else if n = 62 then 43
  else 47

/-- `base64.b64encode`: three bytes to four alphabet characters, with
`=` padding for a final group of one or two bytes. -/
def b64encode : List Nat → List Nat
  | [] => []
  | [a] => [b64chr (a / 4), b64chr (a % 4 * 16), 61, 61]
  | [a, b] => [b64chr (a / 4), b64chr (a % 4 * 16 + b / 16), b64chr (b % 16 * 4), 61]
  | a :: b :: c :: rest =>
    b64chr (a / 4) :: b64chr (a % 4 * 16 + b / 16) :: b64chr (b % 16 * 4 + c / 64) ::
      b64chr (c % 64) :: b64encode rest

/-- Value of one base64 alphabet character. -/
def b64val (c : Nat) : Option Nat :=
  if 65 ≤ c ∧ c ≤ 90 then some (c - 65)
  else if 97 ≤ c ∧ c ≤ 122 then some (c - 71)
  else if 48 ≤ c ∧ c ≤ 57 then some (c + 4)
  else if c = 43 then some 62
  else if c = 47 then some 63
  else none

/-- The decoding loop of `binascii.a2b_base64` in its default non-strict
mode: characters outside the alphabet are discarded; a `=` is ignored
before two data characters of a group and otherwise finishes the decode
once the group is padded out to four; leftover data characters at the end
are an error (`binascii.Error`, a `ValueError`). -/
def b64decodeLoop : List Nat → Nat → Nat → Nat → List Nat → Option (List Nat)
  | [], quadPos, _, _, acc => if quadPos = 0 then some acc else none
  | c :: rest, quadPos, leftchar, pads, acc =>
    if c = 61 then
      if 2 ≤ quadPos then
        if 4 ≤ quadPos + pads + 1 then some acc
        else b64decodeLoop rest quadPos leftchar (pads + 1) acc
      else b64decodeLoop rest quadPos leftchar pads acc
    else
      match b64val c with
      | none => b64decodeLoop rest quadPos leftchar pads acc
      | some v =>
        match quadPos with
        | 0 => b64decodeLoop rest 1 v 0 acc
        | 1 => b64decodeLoop rest 2 (v % 16) 0 (acc ++ [leftchar * 4 + v / 16])
        | 2 => b64decodeLoop rest 3 (v % 4) 0 (acc ++ [leftchar * 16 + v / 4])
        | _ => b64decodeLoop rest 0 0 0 (acc ++ [leftchar * 64 + v])

/-- `base64.b64decode` on a `str` argument: the string must be pure ASCII
(`s.encode("ascii")`), then the non-strict `binascii` loop decodes it. -/
def b64decode (s : PyStr) : Option (List Nat) :=
  if s.all (fun c => c < 128) then b64decodeLoop s 0 0 0 [] else none

/-- `Token.to_base64`: UTF-8-encode the JSON serialization (always ASCII,
since `json.dumps` escapes everything else) and base64-encode the bytes.
`none` stands for an uncaught `UnicodeEncodeError` (impossible for real
dumps output). -/
def Token.to_base64 (t : Token) : Option PyStr :=
  (utf8Encode t.to_json).map b64encode

/-- `Token.from_base64`: base64-decode (a `binascii.Error`/`ValueError`
becomes `TokenError`), UTF-8-decode (a `UnicodeDecodeError` becomes
`TokenError`), then `from_json` (whose `TokenError` propagates). -/
def Token.from_base64 (s : PyStr) : Except TokenError Token :=
  match b64decode s with
  | none => .error .mk
  | some bytes =>
    match utf8Decode bytes with
    | none => .error .mk
    | some js => Token.from_json js

/-- Does the string contain a high surrogate immediately followed by a
low surrogate?  `json.dumps` escapes such adjacent code points as a
`\uXXXX\uXXXX` pair that `json.loads` re-combines into one astral code
point, so such strings do not survive a serialization round trip. -/
def hasSurrogatePair : PyStr → Bool
  | c1 :: c2 :: rest =>
    (55296 ≤ c1 && c1 ≤ 56319 && 56320 ≤ c2 && c2 ≤ 57343) ||
      hasSurrogatePair (c2 :: rest)
  | _ => false

/-- A Python string that serializes losslessly: all code points in range
and no adjacent surrogate pair. -/
def jsonSafe (s : PyStr) : Bool :=
  s.all (fun c => c < 1114112) && !hasSurrogatePair s

/-- The token-expiry sentinel body `\x7b"error": "expired_token"\x7d`. -/
def expiredBody : Json := Json.obj [(pys "error", Json.str (pys "expired_token"))]

/-- A member list whose values are all strings, as `Json` members. -/
def strMembers (l : List (PyStr × PyStr)) : List (PyStr × Json) :=
  l.map (fun p => (p.1, Json.str p.2))

/-- The tail of `Json.dumps` on a string-valued object, starting right
after the opening quote of the first key, with the closing brace and an
arbitrary continuation `rest` appended. -/
def tailDump : List (PyStr × PyStr) → List Nat → List Nat
  | [], rest => rest
  | [(k, v)], rest => escString k ++ 34 :: 58 :: 32 :: (encStr v ++ 125 :: rest)
  | (k, v) :: m :: more, rest =>
    escString k ++ 34 :: 58 :: 32 :: (encStr v ++ 44 :: 32 :: 34 :: tailDump (m :: more) rest)

/-! ## Lemmas: the serialization round trip -/

theorem hexv4_digits (n : Nat) (h : n < 65536) :
    hexv4 (hexDigitLower (n / 4096 % 16)) (hexDigitLower (n / 256 % 16))
      (hexDigitLower (n / 16 % 16)) (hexDigitLower (n % 16)) = some n := by
  have d : ∀ k, k < 16 → fromHexDigit (hexDigitLower k) = some k := by decide
  unfold hexv4
  rw [d _ (by omega), d _ (by omega), d _ (by omega), d _ (by omega)]
  simp
  omega


theorem escString_cons (c : Nat) (s : PyStr) :
    escString (c :: s) = escChar c ++ escString s := rfl

set_option maxHeartbeats 2000000 in
theorem parseStr_succ_lit (fuel c : Nat) (cs : List Nat)
    (h1 : c ≠ 34) (h2 : c ≠ 92) (h3 : ¬ c < 32) :
    parseStr (fuel + 1) (c :: cs) = consStr c (parseStr fuel cs) := by
  conv_lhs => unfold parseStr
  rw [if_neg h1, if_neg h2, if_neg h3]

set_option maxHeartbeats 2000000 in
theorem parseStr_succ_quote (fuel : Nat) (cs : List Nat) :
    parseStr (fuel + 1) (34 :: cs) = some ([], cs) := by
  conv_lhs => unfold parseStr
  simp

set_option maxHeartbeats 2000000 in
theorem parseStr_succ_esc (fuel : Nat) (cs : List Nat) :
    parseStr (fuel + 1) (92 :: 34 :: cs) = consStr 34 (parseStr fuel cs) ∧
    parseStr (fuel + 1) (92 :: 92 :: cs) = consStr 92 (parseStr fuel cs) ∧
    parseStr (fuel + 1) (92 :: 98 :: cs) = consStr 8 (parseStr fuel cs) ∧
    parseStr (fuel + 1) (92 :: 116 :: cs) = consStr 9 (parseStr fuel cs) ∧
    parseStr (fuel + 1) (92 :: 110 :: cs) = consStr 10 (parseStr fuel cs) ∧
    parseStr (fuel + 1) (92 :: 102 :: cs) = consStr 12 (parseStr fuel cs) ∧
    parseStr (fuel + 1) (92 :: 114 :: cs) = consStr 13 (parseStr fuel cs) := by
  refine ⟨?_, ?_, ?_, ?_, ?_, ?_, ?_⟩ <;> (conv_lhs => unfold parseStr) <;> simp

set_option maxHeartbeats 2000000 in
theorem parseStr_succ_u (fuel u : Nat) (r2 : List Nat) (h : u < 65536)
    (hnothigh : ¬ (55296 ≤ u ∧ u ≤ 56319)) :
    parseStr (fuel + 1) (92 :: 117 :: toHex4 u ++ r2) =
      consStr u (parseStr fuel r2) := by
  conv_lhs => unfold parseStr
  simp only [toHex4, List.cons_append, List.nil_append]
  rw [if_neg (by decide : ¬ (92 : Nat) = 34)]
  simp only [show ((92 : Nat) = 92) = True by simp, if_true]
  rw [hexv4_digits u h]
  simp [hnothigh]

set_option maxHeartbeats 1000000 in
theorem escChar_cases (c : Nat) (hc : c < 1114112) :
    (escChar c = [c] ∧ 32 ≤ c ∧ c ≤ 126 ∧ c ≠ 34 ∧ c ≠ 92) ∨
    ((c = 34 ∧ escChar c = [92, 34]) ∨ (c = 92 ∧ escChar c = [92, 92]) ∨
     (c = 8 ∧ escChar c = [92, 98]) ∨ (c = 9 ∧ escChar c = [92, 116]) ∨
     (c = 10 ∧ escChar c = [92, 110]) ∨ (c = 12 ∧ escChar c = [92, 102]) ∨
     (c = 13 ∧ escChar c = [92, 114])) ∨
    (escChar c = 92 :: 117 :: toHex4 c ∧ c < 65536) ∨
    (escChar c = 92 :: 117 :: toHex4 (55296 + (c - 65536) / 1024) ++
       92 :: 117 :: toHex4 (56320 + (c - 65536) % 1024) ∧ 65536 ≤ c) := by
  by_cases h1 : c = 34
  · subst h1; right; left; left; exact ⟨rfl, by decide⟩
  by_cases h2 : c = 92
  · subst h2; right; left; right; left; exact ⟨rfl, by decide⟩
  by_cases h3 : 32 ≤ c ∧ c ≤ 126
  · left; exact ⟨by simp [escChar, h1, h2, h3], h3.1, h3.2, h1, h2⟩
  by_cases h4 : c = 8
  · subst h4; right; left; right; right; left; exact ⟨rfl, by decide⟩
  by_cases h5 : c = 9
  · subst h5; right; left; right; right; right; left; exact ⟨rfl, by decide⟩
  by_cases h6 : c = 10
  · subst h6; right; left; right; right; right; right; left; exact ⟨rfl, by decide⟩
  by_cases h7 : c = 12
  · subst h7; right; left; right; right; right; right; right; left; exact ⟨rfl, by decide⟩
  by_cases h8 : c = 13
  · subst h8; right; left; right; right; right; right; right; right; exact ⟨rfl, by decide⟩
  by_cases h9 : c < 65536
  · right; right; left
    exact ⟨by simp [escChar, h1, h2, h3, h4, h5, h6, h7, h8, h9], h9⟩
  · right; right; right
    refine ⟨by simp [escChar, h1, h2, h3, h4, h5, h6, h7, h8, h9], by omega⟩

set_option maxHeartbeats 2000000 in
theorem parseStr_succ_u_pair (fuel u u2 : Nat) (r4 : List Nat)
    (hu : 55296 ≤ u ∧ u ≤ 56319) (hu2 : 56320 ≤ u2 ∧ u2 ≤ 57343) :
    parseStr (fuel + 1) (92 :: 117 :: toHex4 u ++ 92 :: 117 :: toHex4 u2 ++ r4) =
      consStr (65536 + (u - 55296) * 1024 + (u2 - 56320)) (parseStr fuel r4) := by
  conv_lhs => unfold parseStr
  simp only [toHex4, List.cons_append, List.nil_append]
  rw [if_neg (by decide : ¬ (92 : Nat) = 34)]
  simp only [show ((92 : Nat) = 92) = True by simp, if_true]
  rw [hexv4_digits u (by omega)]
  simp only [hu, and_self, if_true, ite_true, hu.1, hu.2]
  rw [hexv4_digits u2 (by omega)]
  simp [hu2]

set_option maxHeartbeats 2000000 in
theorem parseStr_succ_u_high_lone (fuel u : Nat) (r2 : List Nat)
    (hu : 55296 ≤ u ∧ u ≤ 56319)
    (hlone : ∀ a2 b2 g2 d2 r4, r2 = 92 :: 117 :: a2 :: b2 :: g2 :: d2 :: r4 →
      ∃ u2, hexv4 a2 b2 g2 d2 = some u2 ∧ ¬ (56320 ≤ u2 ∧ u2 ≤ 57343)) :
    parseStr (fuel + 1) (92 :: 117 :: toHex4 u ++ r2) =
      consStr u (parseStr fuel r2) := by
  conv_lhs => unfold parseStr
  simp only [toHex4, List.cons_append, List.nil_append]
  rw [if_neg (by decide : ¬ (92 : Nat) = 34)]
  simp only [show ((92 : Nat) = 92) = True by simp, if_true]
  rw [hexv4_digits u (by omega)]
  simp only [hu, and_self, if_true, ite_true]
  split
  · rename_i b g d r tail
    obtain ⟨u2, hx, hnl⟩ := hlone b g d r tail rfl
    simp [hx, hnl]
  · rfl

theorem escString_no_low_escape (s : PyStr) (rest : List Nat)
    (hval : ∀ x ∈ s, x < 1114112)
    (hhead : ∀ c2 s2, s = c2 :: s2 → ¬ (56320 ≤ c2 ∧ c2 ≤ 57343)) :
    ∀ a2 b2 g2 d2 r4,
      escString s ++ 34 :: rest = 92 :: 117 :: a2 :: b2 :: g2 :: d2 :: r4 →
      ∃ u2, hexv4 a2 b2 g2 d2 = some u2 ∧ ¬ (56320 ≤ u2 ∧ u2 ≤ 57343) := by
  intro a2 b2 g2 d2 r4 heq
  cases s with
  | nil => simp [escString] at heq
  | cons c2 s2 =>
    have hc2 : c2 < 1114112 := hval c2 (by simp)
    have hnl : ¬ (56320 ≤ c2 ∧ c2 ≤ 57343) := hhead c2 s2 rfl
    rw [escString_cons, List.append_assoc] at heq
    rcases escChar_cases c2 hc2 with ⟨he, _, _, _, hne92⟩ | hshort | ⟨he, hlt⟩ | ⟨he, hge⟩
    · rw [he, List.singleton_append] at heq
      exact absurd (List.cons.inj heq).1 hne92
    · rcases hshort with ⟨_, he⟩ | ⟨_, he⟩ | ⟨_, he⟩ | ⟨_, he⟩ | ⟨_, he⟩ | ⟨_, he⟩ | ⟨_, he⟩ <;>
        (rw [he] at heq; simp at heq)
    · rw [he] at heq
      simp only [toHex4, List.cons_append, List.nil_append, List.cons.injEq] at heq
      obtain ⟨-, -, ha, hb, hg, hd, -⟩ := heq
      refine ⟨c2, ?_, hnl⟩
      rw [← ha, ← hb, ← hg, ← hd]
      exact hexv4_digits c2 hlt
    · rw [he] at heq
      simp only [toHex4, List.cons_append, List.nil_append, List.append_assoc,
        List.cons.injEq] at heq
      obtain ⟨-, -, ha, hb, hg, hd, -⟩ := heq
      refine ⟨55296 + (c2 - 65536) / 1024, ?_, by omega⟩
      rw [← ha, ← hb, ← hg, ← hd]
      exact hexv4_digits _ (by omega)

theorem hasSurrogatePair_cons (c : Nat) (s : PyStr)
    (h : hasSurrogatePair (c :: s) = false) : hasSurrogatePair s = false := by
  cases s with
  | nil => rfl
  | cons c2 s2 =>
    simp only [hasSurrogatePair, Bool.or_eq_false_iff] at h
    exact h.2

theorem parseStr_escString (s : PyStr) :
    (∀ x ∈ s, x < 1114112) → hasSurrogatePair s = false →
    ∀ (k : Nat) (rest : List Nat),
      parseStr (s.length + 1 + k) (escString s ++ 34 :: rest) = some (s, rest) := by
  induction s with
  | nil =>
    intro _ _ k rest
    rw [show ([] : PyStr).length + 1 + k = k + 1 by rw [List.length_nil]; omega]
    simpa [escString] using parseStr_succ_quote k rest
  | cons c s ih =>
    intro hval hsp k rest
    have hc : c < 1114112 := hval c (by simp)
    have hval2 : ∀ x ∈ s, x < 1114112 := fun x hx => hval x (by simp [hx])
    have hsp2 : hasSurrogatePair s = false := hasSurrogatePair_cons c s hsp
    have hih := ih hval2 hsp2 k rest
    rw [show (c :: s).length + 1 + k = s.length + 1 + k + 1 by
      rw [List.length_cons]; omega]
    rw [escString_cons, List.append_assoc]
    rcases escChar_cases c hc with ⟨he, _, _, h34, h92⟩ | hshort | ⟨he, hlt⟩ | ⟨he, hge⟩
    · rw [he, List.singleton_append,
        parseStr_succ_lit _ c _ h34 h92 (by omega), hih]
      rfl
    · rcases hshort with ⟨hc', he⟩ | ⟨hc', he⟩ | ⟨hc', he⟩ | ⟨hc', he⟩ | ⟨hc', he⟩ |
        ⟨hc', he⟩ | ⟨hc', he⟩ <;>
        (subst hc'
         rw [he]
         simp only [List.cons_append, List.nil_append])
      · rw [(parseStr_succ_esc _ _).1, hih]; rfl
      · rw [(parseStr_succ_esc _ _).2.1, hih]; rfl
      · rw [(parseStr_succ_esc _ _).2.2.1, hih]; rfl
      · rw [(parseStr_succ_esc _ _).2.2.2.1, hih]; rfl
      · rw [(parseStr_succ_esc _ _).2.2.2.2.1, hih]; rfl
      · rw [(parseStr_succ_esc _ _).2.2.2.2.2.1, hih]; rfl
      · rw [(parseStr_succ_esc _ _).2.2.2.2.2.2, hih]; rfl
    · by_cases hhigh : 55296 ≤ c ∧ c ≤ 56319
      · have hhd : ∀ c2 s2, s = c2 :: s2 → ¬ (56320 ≤ c2 ∧ c2 ≤ 57343) := by
          intro c2 s2 hs
          subst hs
          simp only [hasSurrogatePair, Bool.or_eq_false_iff] at hsp
          intro hl
          have := hsp.1
          simp [hhigh.1, hhigh.2, hl.1, hl.2] at this
        rw [he, List.cons_append, List.cons_append]
        exact (parseStr_succ_u_high_lone (s.length + 1 + k) c
            (escString s ++ 34 :: rest) hhigh
            (escString_no_low_escape s rest hval2 hhd)).trans
          (by rw [hih]; rfl)
      · rw [he, List.cons_append, List.cons_append]
        exact (parseStr_succ_u (s.length + 1 + k) c
            (escString s ++ 34 :: rest) hlt hhigh).trans (by rw [hih]; rfl)
    · rw [he]
      simp only [List.cons_append, List.append_assoc]
      exact (parseStr_succ_u_pair (s.length + 1 + k)
          (55296 + (c - 65536) / 1024) (56320 + (c - 65536) % 1024)
          (escString s ++ 34 :: rest) (by omega) (by omega)).trans
        (by rw [hih,
            show 65536 + (55296 + (c - 65536) / 1024 - 55296) * 1024 +
              (56320 + (c - 65536) % 1024 - 56320) = c by omega]
            rfl)

theorem escChar_length (c : Nat) : 1 ≤ (escChar c).length := by
  unfold escChar
  split_ifs <;> simp [toHex4]

theorem escString_length (s : PyStr) : s.length ≤ (escString s).length := by
  induction s with
  | nil => simp [escString]
  | cons c s ih =>
    rw [escString_cons, List.length_append, List.length_cons]
    have := escChar_length c
    omega

theorem parseStr_escString_len (s : PyStr)
    (hval : ∀ x ∈ s, x < 1114112) (hsp : hasSurrogatePair s = false)
    (rest : List Nat) :
    parseStr ((escString s ++ 34 :: rest).length + 1) (escString s ++ 34 :: rest) =
      some (s, rest) := by
  have hlen := escString_length s
  obtain ⟨k, hk⟩ : ∃ k, (escString s ++ 34 :: rest).length + 1 = s.length + 1 + k := by
    refine ⟨(escString s ++ 34 :: rest).length - s.length, ?_⟩
    rw [List.length_append, List.length_cons]
    omega
  rw [hk]
  exact parseStr_escString s hval hsp k rest

set_option maxHeartbeats 1000000 in
theorem parseValue_str (fuel : Nat) (s : PyStr) (rest : List Nat)
    (hval : ∀ x ∈ s, x < 1114112) (hsp : hasSurrogatePair s = false) :
    parseValue (fuel + 1) (encStr s ++ rest) = some (Json.str s, rest) := by
  have h : encStr s ++ rest = 34 :: (escString s ++ 34 :: rest) := by
    simp [encStr]
  rw [h]
  have hv : parseValue (fuel + 1) (34 :: (escString s ++ 34 :: rest)) =
      (parseStr ((escString s ++ 34 :: rest).length + 1)
        (escString s ++ 34 :: rest)).map (fun p => (Json.str p.1, p.2)) := rfl
  rw [hv, parseStr_escString_len s hval hsp rest]
  rfl

theorem skipWs_nonws (c : Nat) (cs : List Nat)
    (h : ¬ (c = 32 ∨ c = 9 ∨ c = 10 ∨ c = 13)) : skipWs (c :: cs) = c :: cs := by
  have : (c == 32 || c == 9 || c == 10 || c == 13) = false := by
    simp only [Bool.or_eq_false_iff, beq_eq_false_iff_ne]
    omega
  simp [skipWs, List.dropWhile_cons, this]

theorem skipWs_space (cs : List Nat) : skipWs (32 :: cs) = skipWs cs := by
  simp [skipWs, List.dropWhile_cons]

theorem jsonSafe_spec (s : PyStr) (h : jsonSafe s = true) :
    (∀ x ∈ s, x < 1114112) ∧ hasSurrogatePair s = false := by
  simp only [jsonSafe, Bool.and_eq_true, Bool.not_eq_true', List.all_eq_true,
    decide_eq_true_eq] at h
  exact h

theorem dumpsMembers_eq_tail :
    ∀ (l : List (PyStr × PyStr)) (rest : List Nat), l ≠ [] →
      Json.dumpsMembers (strMembers l) ++ 125 :: rest = 34 :: tailDump l rest := by
  intro l
  induction l with
  | nil => intro rest h; exact absurd rfl h
  | cons p l' ih =>
    intro rest _
    obtain ⟨k, v⟩ := p
    cases l' with
    | nil =>
      show Json.dumpsMembers [(k, Json.str v)] ++ 125 :: rest = _
      simp only [Json.dumpsMembers, Json.dumps, tailDump, encStr]
      simp [pys, List.append_assoc]
    | cons m more =>
      have hih := ih rest (by simp)
      show Json.dumpsMembers ((k, Json.str v) :: strMembers (m :: more)) ++ 125 :: rest = _
      have hm : strMembers (m :: more) = (m.1, Json.str m.2) :: strMembers more := rfl
      rw [hm]
      simp only [Json.dumpsMembers, Json.dumps]
      rw [← hm]
      simp only [tailDump]
      rw [show pys ": " = [58, 32] from rfl, show pys ", " = [44, 32] from rfl]
      simp only [encStr, List.append_assoc, List.cons_append, List.nil_append]
      rw [hih]

set_option maxHeartbeats 1000000 in
theorem parseMembers_tailDump :
    ∀ (l : List (PyStr × PyStr)), l ≠ [] →
      (∀ p ∈ l, jsonSafe p.1 = true ∧ jsonSafe p.2 = true) →
      ∀ (fuel : Nat) (acc : List (PyStr × Json)) (rest : List Nat),
        parseMembers (l.length + fuel + 1) (tailDump l rest) acc =
          some (Json.obj (acc ++ strMembers l), rest) := by
  intro l
  induction l with
  | nil => intro h; exact absurd rfl h
  | cons p l' ih =>
    intro _ hsafe fuel acc rest
    obtain ⟨k, v⟩ := p
    obtain ⟨hk, hv⟩ := hsafe (k, v) (by simp)
    obtain ⟨hkval, hksp⟩ := jsonSafe_spec k hk
    obtain ⟨hvval, hvsp⟩ := jsonSafe_spec v hv
    cases l' with
    | nil =>
      rw [show ([(k, v)] : List (PyStr × PyStr)).length + fuel + 1 = (fuel + 1) + 1 by
        simp only [List.length_cons, List.length_nil]
        try omega]
      have e1 := parseStr_escString_len k hkval hksp
        (58 :: 32 :: (encStr v ++ 125 :: rest))
      have e2 : skipWs (58 :: 32 :: (encStr v ++ 125 :: rest)) =
          58 :: 32 :: (encStr v ++ 125 :: rest) := skipWs_nonws 58 _ (by omega)
      have e3 : skipWs (32 :: (encStr v ++ 125 :: rest)) = encStr v ++ 125 :: rest := by
        rw [skipWs_space,
          show encStr v ++ 125 :: rest = 34 :: (escString v ++ 34 :: 125 :: rest) by
            simp [encStr],
          skipWs_nonws 34 _ (by omega)]
      have e4 : parseValue (fuel + 1) (encStr v ++ 125 :: rest) =
          some (Json.str v, 125 :: rest) := parseValue_str fuel v _ hvval hvsp
      have e5 : skipWs (125 :: rest) = 125 :: rest := skipWs_nonws 125 _ (by omega)
      simp only [tailDump, parseMembers, e1, e2, e3, e4, e5]
      simp [strMembers]
    | cons m more =>
      have hihsafe : ∀ p ∈ m :: more, jsonSafe p.1 = true ∧ jsonSafe p.2 = true :=
        fun q hq => hsafe q (by simp [hq])
      have hih := ih (by simp) hihsafe fuel (acc ++ [(k, Json.str v)]) rest
      rw [show ((k, v) :: m :: more).length + fuel + 1 =
        ((m :: more).length + fuel + 1) + 1 by
        simp only [List.length_cons, List.length_nil]
        try omega]
      have e1 := parseStr_escString_len k hkval hksp
        (58 :: 32 :: (encStr v ++ 44 :: 32 :: 34 :: tailDump (m :: more) rest))
      have e2 : skipWs (58 :: 32 :: (encStr v ++ 44 :: 32 :: 34 ::
          tailDump (m :: more) rest)) = 58 :: 32 :: (encStr v ++ 44 :: 32 :: 34 ::
          tailDump (m :: more) rest) := skipWs_nonws 58 _ (by omega)
      have e3 : skipWs (32 :: (encStr v ++ 44 :: 32 :: 34 ::
          tailDump (m :: more) rest)) = encStr v ++ 44 :: 32 :: 34 ::
          tailDump (m :: more) rest := by
        rw [skipWs_space,
          show encStr v ++ 44 :: 32 :: 34 :: tailDump (m :: more) rest =
            34 :: (escString v ++ 34 :: 44 :: 32 :: 34 :: tailDump (m :: more) rest) by
            simp [encStr],
          skipWs_nonws 34 _ (by omega)]
      have e4 : parseValue (more.length + 1 + fuel + 1)
          (encStr v ++ 44 :: 32 :: 34 :: tailDump (m :: more) rest) =
          some (Json.str v, 44 :: 32 :: 34 :: tailDump (m :: more) rest) :=
        parseValue_str _ v _ hvval hvsp
      have e5 : skipWs (44 :: 32 :: 34 :: tailDump (m :: more) rest) =
          44 :: 32 :: 34 :: tailDump (m :: more) rest := skipWs_nonws 44 _ (by omega)
      have e6 : skipWs (32 :: 34 :: tailDump (m :: more) rest) =
          34 :: tailDump (m :: more) rest := by
        rw [skipWs_space, skipWs_nonws 34 _ (by omega)]
      simp only [parseMembers, List.length_cons, List.length_nil, List.append_assoc,
        List.cons_append, List.nil_append, List.singleton_append] at hih
      simp only [tailDump, List.length_cons, List.length_nil, parseMembers,
        List.append_assoc, List.cons_append, List.nil_append, List.singleton_append,
        e1, e2, e3, e4, e5, e6]
      rw [hih]
      simp [strMembers, List.append_assoc]

theorem tailDump_length : ∀ (l : List (PyStr × PyStr)) (rest : List Nat),
    l.length ≤ (tailDump l rest).length := by
  intro l
  induction l with
  | nil => intro rest; simp [tailDump]
  | cons p l' ih =>
    intro rest
    obtain ⟨k, v⟩ := p
    cases l' with
    | nil =>
      simp only [tailDump, encStr, List.length_append, List.length_cons,
        List.length_nil]
      omega
    | cons m more =>
      have := ih rest
      simp only [tailDump, List.length_append, List.length_cons] at this ⊢
      omega

set_option maxHeartbeats 1000000 in
theorem jsonLoads_dumps_strObj (l : List (PyStr × PyStr)) (hl : l ≠ [])
    (hsafe : ∀ p ∈ l, jsonSafe p.1 = true ∧ jsonSafe p.2 = true) :
    jsonLoads (Json.dumps (Json.obj (strMembers l))) =
      some (Json.obj (strMembers l)) := by
  have hX : Json.dumps (Json.obj (strMembers l)) = 123 :: (34 :: tailDump l []) := by
    show 123 :: (Json.dumpsMembers (strMembers l) ++ [125]) = _
    rw [show ([125] : List Nat) = 125 :: [] from rfl, dumpsMembers_eq_tail l [] hl]
  unfold jsonLoads
  rw [hX, skipWs_nonws 123 _ (by omega)]
  have hlen := tailDump_length l []
  obtain ⟨f, hf⟩ : ∃ f, 3 * (123 :: 34 :: tailDump l [] : List Nat).length + 3 =
      ((l.length + f + 1) + 1) + 1 := by
    refine ⟨3 * (tailDump l []).length + 6 - l.length, ?_⟩
    simp only [List.length_cons]
    omega
  rw [hf]
  have s1 : parseValue (((l.length + f + 1) + 1) + 1) (123 :: (34 :: tailDump l [])) =
      parseObj ((l.length + f + 1) + 1) (34 :: tailDump l []) := rfl
  rw [s1]
  have s2 : parseObj ((l.length + f + 1) + 1) (34 :: tailDump l []) =
      parseMembers (l.length + f + 1) (tailDump l []) [] := by
    conv_lhs => unfold parseObj
    rw [skipWs_nonws 34 _ (by omega)]
  rw [s2, parseMembers_tailDump l hl hsafe f [] []]
  simp [skipWs]

set_option maxHeartbeats 1000000 in
theorem from_dict_to_dict (a : PyStr) (rt dc : Option PyStr) :
    Token.from_dict (Json.obj (Token.to_dict (Token.ofStrings a rt dc))) =
      Except.ok (Token.ofStrings a rt dc) := by
  have q1 : (pys "refresh_token" == pys "access_token") = false := by decide
  have q2 : (pys "device_code" == pys "access_token") = false := by decide
  have q3 : (pys "access_token" == pys "device_code") = false := by decide
  have q4 : (pys "refresh_token" == pys "device_code") = false := by decide
  have q5 : (pys "access_token" == pys "refresh_token") = false := by decide
  have q6 : (pys "device_code" == pys "refresh_token") = false := by decide
  have q7 : (pys "access_token" == pys "access_token") = true := by decide
  have q8 : (pys "refresh_token" == pys "refresh_token") = true := by decide
  have q9 : (pys "device_code" == pys "device_code") = true := by decide
  cases rt <;> cases dc <;>
    simp +decide [Token.from_dict, Token.to_dict, Token.ofStrings, optToJson,
      hasKeyKV, jsonLookup, List.lookup, Json.isNull, q1, q2, q3, q4, q5, q6,
      q7, q8, q9]

theorem token_from_json_to_json (a : PyStr) (rt dc : Option PyStr)
    (ha : jsonSafe a = true)
    (hrt : ∀ s, rt = some s → jsonSafe s = true)
    (hdc : ∀ s, dc = some s → jsonSafe s = true) :
    Token.from_json (Token.to_json (Token.ofStrings a rt dc)) =
      Except.ok (Token.ofStrings a rt dc) := by
  have hfd := from_dict_to_dict a rt dc
  cases rt with
  | none =>
    cases dc with
    | none =>
      have hload := jsonLoads_dumps_strObj [(pys "access_token", a)] (by simp)
        (by intro p hp
            simp only [List.mem_singleton] at hp
            subst hp
            exact ⟨(by decide : jsonSafe (pys "access_token") = true), ha⟩)
      show Token.from_json (Json.dumps (Json.obj
        (strMembers [(pys "access_token", a)]))) = _
      unfold Token.from_json
      rw [hload]
      exact hfd
    | some d =>
      have hd := hdc d rfl
      have hload := jsonLoads_dumps_strObj
        [(pys "access_token", a), (pys "device_code", d)] (by simp)
        (by intro p hp
            simp only [List.mem_cons, List.mem_singleton] at hp
            rcases hp with rfl | rfl | h
            · exact ⟨(by decide : jsonSafe (pys "access_token") = true), ha⟩
            · exact ⟨(by decide : jsonSafe (pys "device_code") = true), hd⟩
            · exact absurd h (by simp))
      show Token.from_json (Json.dumps (Json.obj
        (strMembers [(pys "access_token", a), (pys "device_code", d)]))) = _
      unfold Token.from_json
      rw [hload]
      exact hfd
  | some r =>
    have hr := hrt r rfl
    cases dc with
    | none =>
      have hload := jsonLoads_dumps_strObj
        [(pys "access_token", a), (pys "refresh_token", r)] (by simp)
        (by intro p hp
            simp only [List.mem_cons, List.mem_singleton] at hp
            rcases hp with rfl | rfl | h
            · exact ⟨(by decide : jsonSafe (pys "access_token") = true), ha⟩
            · exact ⟨(by decide : jsonSafe (pys "refresh_token") = true), hr⟩
            · exact absurd h (by simp))
      show Token.from_json (Json.dumps (Json.obj
        (strMembers [(pys "access_token", a), (pys "refresh_token", r)]))) = _
      unfold Token.from_json
      rw [hload]
      exact hfd
    | some d =>
      have hd := hdc d rfl
      have hload := jsonLoads_dumps_strObj
        [(pys "access_token", a), (pys "refresh_token", r), (pys "device_code", d)]
        (by simp)
        (by intro p hp
            simp only [List.mem_cons, List.mem_singleton] at hp
            rcases hp with rfl | rfl | rfl | h
            · exact ⟨(by decide : jsonSafe (pys "access_token") = true), ha⟩
            · exact ⟨(by decide : jsonSafe (pys "refresh_token") = true), hr⟩
            · exact ⟨(by decide : jsonSafe (pys "device_code") = true), hd⟩
            · exact absurd h (by simp))
      show Token.from_json (Json.dumps (Json.obj
        (strMembers [(pys "access_token", a), (pys "refresh_token", r),
          (pys "device_code", d)]))) = _
      unfold Token.from_json
      rw [hload]
      exact hfd

theorem hexDigitLower_mod_lt (n : Nat) : hexDigitLower (n % 16) < 128 := by
  have : n % 16 < 16 := Nat.mod_lt _ (by omega)
  unfold hexDigitLower
  split_ifs <;> omega

set_option maxHeartbeats 1000000 in
theorem escChar_ascii (c : Nat) : ∀ x ∈ escChar c, x < 128 := by
  intro x hx
  have h1 := hexDigitLower_mod_lt (c / 4096)
  have h2 := hexDigitLower_mod_lt (c / 256)
  have h3 := hexDigitLower_mod_lt (c / 16)
  have h4 := hexDigitLower_mod_lt c
  have h5 := hexDigitLower_mod_lt ((55296 + (c - 65536) / 1024) / 4096)
  have h6 := hexDigitLower_mod_lt ((55296 + (c - 65536) / 1024) / 256)
  have h7 := hexDigitLower_mod_lt ((55296 + (c - 65536) / 1024) / 16)
  have h8 := hexDigitLower_mod_lt (55296 + (c - 65536) / 1024)
  have h9 := hexDigitLower_mod_lt ((56320 + (c - 65536) % 1024) / 4096)
  have h10 := hexDigitLower_mod_lt ((56320 + (c - 65536) % 1024) / 256)
  have h11 := hexDigitLower_mod_lt ((56320 + (c - 65536) % 1024) / 16)
  have h12 := hexDigitLower_mod_lt (56320 + (c - 65536) % 1024)
  unfold escChar at hx
  split_ifs at hx <;> simp [toHex4] at hx <;> rcases hx with hx | hx | hx | hx |
    hx | hx | hx | hx | hx | hx <;> omega

theorem escString_ascii (s : PyStr) : ∀ x ∈ escString s, x < 128 := by
  induction s with
  | nil => simp [escString]
  | cons c s ih =>
    intro x hx
    rw [escString_cons, List.mem_append] at hx
    rcases hx with hx | hx
    · exact escChar_ascii c x hx
    · exact ih x hx

theorem encStr_ascii (s : PyStr) : ∀ x ∈ encStr s, x < 128 := by
  intro x hx
  rw [show encStr s = 34 :: (escString s ++ [34]) from rfl] at hx
  rcases List.mem_cons.mp hx with h | h
  · omega
  · rcases List.mem_append.mp h with h | h
    · exact escString_ascii s x h
    · simp only [List.mem_singleton] at h; omega

theorem dumpsMembers_ascii : ∀ (l : List (PyStr × PyStr)),
    ∀ x ∈ Json.dumpsMembers (strMembers l), x < 128 := by
  intro l
  induction l with
  | nil => simp [strMembers, Json.dumpsMembers]
  | cons p l' ih =>
    intro x hx
    obtain ⟨k, v⟩ := p
    cases l' with
    | nil =>
      simp only [strMembers, List.map, Json.dumpsMembers, Json.dumps,
        List.mem_append] at hx
      rcases hx with (hx | hx) | hx
      · exact encStr_ascii k x hx
      · simp [pys] at hx; omega
      · exact encStr_ascii v x hx
    | cons m more =>
      have hm : strMembers ((k, v) :: m :: more) =
          (k, Json.str v) :: (m.1, Json.str m.2) :: strMembers more := rfl
      rw [hm] at hx
      simp only [Json.dumpsMembers, Json.dumps, List.mem_append] at hx
      rcases hx with (((hx | hx) | hx) | hx) | hx
      · exact encStr_ascii k x hx
      · simp [pys] at hx; omega
      · exact encStr_ascii v x hx
      · simp [pys] at hx; omega
      · exact ih x (by rw [show strMembers (m :: more) =
          (m.1, Json.str m.2) :: strMembers more from rfl]; exact hx)

theorem dumps_strObj_ascii (l : List (PyStr × PyStr)) :
    ∀ x ∈ Json.dumps (Json.obj (strMembers l)), x < 128 := by
  intro x hx
  have : Json.dumps (Json.obj (strMembers l)) =
      123 :: (Json.dumpsMembers (strMembers l) ++ [125]) := rfl
  rw [this] at hx
  simp only [List.mem_cons, List.mem_append, List.mem_singleton,
    List.not_mem_nil, or_false] at hx
  rcases hx with hx | hx <;>
    first
    | omega
    | exact dumpsMembers_ascii l x hx
    | (rcases hx with hx | hx <;>
        first
        | omega
        | exact dumpsMembers_ascii l x hx)

theorem utf8Encode_ascii (s : PyStr) (h : ∀ x ∈ s, x < 128) :
    utf8Encode s = some s := by
  induction s with
  | nil => rfl
  | cons c s ih =>
    have hc : c < 128 := h c (by simp)
    have ht := ih (fun x hx => h x (by simp [hx]))
    simp only [utf8Encode, utf8EncodeChar, if_pos hc, ht]
    rfl

theorem utf8DecodeF_cons_ascii (f c : Nat) (s : List Nat) (hc : c < 128) :
    utf8DecodeF (f + 1) (c :: s) = (utf8DecodeF f s).map (fun t => c :: t) := by
  have h0 : utf8DecodeF (f + 1) (c :: s) =
      (if c < 128 then (utf8DecodeF f s).map (fun t => c :: t)
       else if c ≤ 223 then
        match s with
        | b2 :: rest2 =>
          match utf8Two c b2 with
          | some n => (utf8DecodeF f rest2).map (fun t => n :: t)
          | none => none
        | [] => none
       else if c ≤ 239 then
        match s with
        | b2 :: b3 :: rest2 =>
          match utf8Three c b2 b3 with
          | some n => (utf8DecodeF f rest2).map (fun t => n :: t)
          | none => none
        | _ => none
       else
        match s with
        | b2 :: b3 :: b4 :: rest2 =>
          match utf8Four c b2 b3 b4 with
          | some n => (utf8DecodeF f rest2).map (fun t => n :: t)
          | none => none
        | _ => none) := rfl
  rw [h0, if_pos hc]

theorem utf8DecodeF_ascii : ∀ (s : List Nat) (f : Nat), s.length < f →
    (∀ x ∈ s, x < 128) → utf8DecodeF f s = some s := by
  intro s
  induction s with
  | nil =>
    intro f hf _
    match f, hf with
    | g + 1, _ => rfl
  | cons c s ih =>
    intro f hf h
    have hc : c < 128 := h c (by simp)
    match f, hf with
    | g + 1, hf =>
      have hg : s.length < g := by
        have := hf; simp only [List.length_cons] at this; omega
      rw [utf8DecodeF_cons_ascii g c s hc, ih g hg (fun x hx => h x (by simp [hx]))]
      rfl

theorem utf8Decode_ascii (s : List Nat) (h : ∀ x ∈ s, x < 128) :
    utf8Decode s = some s :=
  utf8DecodeF_ascii s (s.length + 1) (by omega) h

/-- Every base64 alphabet character is ASCII. -/
theorem b64chr_lt (n : Nat) : b64chr n < 128 := by
  unfold b64chr; split_ifs <;> omega

/-- No alphabet character is the padding character. -/
theorem b64chr_ne_61 (n : Nat) : b64chr n ≠ 61 := by
  unfold b64chr; split_ifs <;> omega

set_option maxRecDepth 4096 in
/-- `b64val` inverts `b64chr` on the alphabet. -/
theorem b64val_chr (n : Nat) (h : n < 64) : b64val (b64chr n) = some n := by
  unfold b64chr b64val
  split_ifs <;> (congr 1; omega)

theorem b64decodeLoop_cons (c : Nat) (rest : List Nat) (quadPos leftchar pads : Nat)
    (acc : List Nat) :
    b64decodeLoop (c :: rest) quadPos leftchar pads acc =
      (if c = 61 then
        if 2 ≤ quadPos then
          if 4 ≤ quadPos + pads + 1 then some acc
          else b64decodeLoop rest quadPos leftchar (pads + 1) acc
        else b64decodeLoop rest quadPos leftchar pads acc
      else
        match b64val c with
        | none => b64decodeLoop rest quadPos leftchar pads acc
        | some v =>
          match quadPos with
          | 0 => b64decodeLoop rest 1 v 0 acc
          | 1 => b64decodeLoop rest 2 (v % 16) 0 (acc ++ [leftchar * 4 + v / 16])
          | 2 => b64decodeLoop rest 3 (v % 4) 0 (acc ++ [leftchar * 16 + v / 4])
          | _ => b64decodeLoop rest 0 0 0 (acc ++ [leftchar * 64 + v])) := rfl

/-- One full group of four alphabet characters appends its three decoded
bytes and returns the loop to quad position zero. -/
theorem loop_quad (w x y z : Nat) (hw : w < 64) (hx : x < 64) (hy : y < 64)
    (hz : z < 64) (rest acc : List Nat) :
    b64decodeLoop (b64chr w :: b64chr x :: b64chr y :: b64chr z :: rest) 0 0 0 acc =
      b64decodeLoop rest 0 0 0
        (acc ++ [w * 4 + x / 16, x % 16 * 16 + y / 4, y % 4 * 64 + z]) := by
  have n1 : (b64chr w = 61) = False := eq_false (b64chr_ne_61 w)
  have n2 : (b64chr x = 61) = False := eq_false (b64chr_ne_61 x)
  have n3 : (b64chr y = 61) = False := eq_false (b64chr_ne_61 y)
  have n4 : (b64chr z = 61) = False := eq_false (b64chr_ne_61 z)
  rw [b64decodeLoop_cons]
  simp only [n1, if_false, b64val_chr w hw]
  rw [b64decodeLoop_cons]
  simp only [n2, if_false, b64val_chr x hx]
  rw [b64decodeLoop_cons]
  simp only [n3, if_false, b64val_chr y hy]
  rw [b64decodeLoop_cons]
  simp only [n4, if_false, b64val_chr z hz]
  simp only [List.append_assoc, List.cons_append, List.nil_append]

/-- Everything `b64encode` produces is ASCII. -/
theorem b64encode_ascii : ∀ (n : Nat) (bytes : List Nat), bytes.length ≤ n →
    ∀ x ∈ b64encode bytes, x < 128 := by
  intro n
  induction n with
  | zero =>
    intro bytes hlen x hx
    match bytes, hlen with
    | [], _ => simp [b64encode] at hx
  | succ n ih =>
    intro bytes hlen x hx
    match bytes with
    | [] => simp [b64encode] at hx
    | [a] =>
      rw [show b64encode [a] = [b64chr (a / 4), b64chr (a % 4 * 16), 61, 61] from rfl] at hx
      simp only [List.mem_cons, List.not_mem_nil, or_false] at hx
      rcases hx with h | h | h | h <;> subst h <;> first | exact b64chr_lt _ | omega
    | [a, b] =>
      rw [show b64encode [a, b] =
        [b64chr (a / 4), b64chr (a % 4 * 16 + b / 16), b64chr (b % 16 * 4), 61] from rfl] at hx
      simp only [List.mem_cons, List.not_mem_nil, or_false] at hx
      rcases hx with h | h | h | h <;> subst h <;> first | exact b64chr_lt _ | omega
    | a :: b :: c :: rest =>
      rw [show b64encode (a :: b :: c :: rest) =
        b64chr (a / 4) :: b64chr (a % 4 * 16 + b / 16) :: b64chr (b % 16 * 4 + c / 64) ::
          b64chr (c % 64) :: b64encode rest from rfl] at hx
      simp only [List.mem_cons] at hx
      have hlen' : rest.length ≤ n := by
        simp only [List.length_cons] at hlen; omega
      rcases hx with h | h | h | h | h
      · subst h; exact b64chr_lt _
      · subst h; exact b64chr_lt _
      · subst h; exact b64chr_lt _
      · subst h; exact b64chr_lt _
      · exact ih rest hlen' x h

/-- The non-strict decode loop inverts `b64encode`, for byte inputs. -/
theorem b64decodeLoop_encode : ∀ (n : Nat) (bytes : List Nat), bytes.length ≤ n →
    (∀ x ∈ bytes, x < 256) → ∀ acc : List Nat,
    b64decodeLoop (b64encode bytes) 0 0 0 acc = some (acc ++ bytes) := by
  intro n
  induction n with
  | zero =>
    intro bytes hlen _ acc
    match bytes, hlen with
    | [], _ => simp [b64encode, b64decodeLoop]
  | succ n ih =>
    intro bytes hlen hb acc
    match bytes with
    | [] => simp [b64encode, b64decodeLoop]
    | [a] =>
      have ha : a < 256 := hb a (by simp)
      have n1 : (b64chr (a / 4) = 61) = False := eq_false (b64chr_ne_61 _)
      have n2 : (b64chr (a % 4 * 16) = 61) = False := eq_false (b64chr_ne_61 _)
      have v1 : b64val (b64chr (a / 4)) = some (a / 4) := b64val_chr _ (by omega)
      have v2 : b64val (b64chr (a % 4 * 16)) = some (a % 4 * 16) := b64val_chr _ (by omega)
      rw [show b64encode [a] = [b64chr (a / 4), b64chr (a % 4 * 16), 61, 61] from rfl]
      rw [b64decodeLoop_cons]
      simp only [n1, if_false, v1]
      rw [b64decodeLoop_cons]
      simp only [n2, if_false, v2]
      rw [b64decodeLoop_cons]
      norm_num
      rw [b64decodeLoop_cons]
      norm_num
      omega
    | [a, b] =>
      have ha : a < 256 := hb a (by simp)
      have hbb : b < 256 := hb b (by simp)
      have n1 : (b64chr (a / 4) = 61) = False := eq_false (b64chr_ne_61 _)
      have n2 : (b64chr (a % 4 * 16 + b / 16) = 61) = False := eq_false (b64chr_ne_61 _)
      have n3 : (b64chr (b % 16 * 4) = 61) = False := eq_false (b64chr_ne_61 _)
      have v1 : b64val (b64chr (a / 4)) = some (a / 4) := b64val_chr _ (by omega)
      have v2 : b64val (b64chr (a % 4 * 16 + b / 16)) = some (a % 4 * 16 + b / 16) :=
        b64val_chr _ (by omega)
      have v3 : b64val (b64chr (b % 16 * 4)) = some (b % 16 * 4) := b64val_chr _ (by omega)
      rw [show b64encode [a, b] =
        [b64chr (a / 4), b64chr (a % 4 * 16 + b / 16), b64chr (b % 16 * 4), 61] from rfl]
      rw [b64decodeLoop_cons]
      simp only [n1, if_false, v1]
      rw [b64decodeLoop_cons]
      simp only [n2, if_false, v2]
      rw [b64decodeLoop_cons]
      simp only [n3, if_false, v3]
      rw [b64decodeLoop_cons]
      norm_num
      omega
    | a :: b :: c :: rest =>
      have ha : a < 256 := hb a (by simp)
      have hbb : b < 256 := hb b (by simp)
      have hc : c < 256 := hb c (by simp)
      rw [show b64encode (a :: b :: c :: rest) =
        b64chr (a / 4) :: b64chr (a % 4 * 16 + b / 16) :: b64chr (b % 16 * 4 + c / 64) ::
          b64chr (c % 64) :: b64encode rest from rfl]
      rw [loop_quad _ _ _ _ (by omega) (by omega) (by omega) (by omega)]
      have e1 : a / 4 * 4 + (a % 4 * 16 + b / 16) / 16 = a := by omega
      have e2 : (a % 4 * 16 + b / 16) % 16 * 16 + (b % 16 * 4 + c / 64) / 4 = b := by omega
      have e3 : (b % 16 * 4 + c / 64) % 4 * 64 + c % 64 = c := by omega
      rw [e1, e2, e3]
      have hrest : ∀ x ∈ rest, x < 256 := fun x hx => hb x (by simp [hx])
      have hlen' : rest.length ≤ n := by
        simp only [List.length_cons] at hlen; omega
      rw [ih rest hlen' hrest (acc ++ [a, b, c])]
      simp

/-- `base64.b64decode` inverts `base64.b64encode` on byte strings. -/
theorem b64decode_encode (bytes : List Nat) (h : ∀ x ∈ bytes, x < 256) :
    b64decode (b64encode bytes) = some bytes := by
  unfold b64decode
  rw [if_pos]
  · exact (b64decodeLoop_encode bytes.length bytes le_rfl h []).trans (by simp)
  · rw [List.all_eq_true]
    intro x hx
    simpa using b64encode_ascii bytes.length bytes le_rfl x hx

theorem to_json_ascii (a : PyStr) (rt dc : Option PyStr) :
    ∀ x ∈ Token.to_json (Token.ofStrings a rt dc), x < 128 := by
  cases rt with
  | none =>
    cases dc with
    | none => exact dumps_strObj_ascii [(pys "access_token", a)]
    | some d =>
      exact dumps_strObj_ascii [(pys "access_token", a), (pys "device_code", d)]
  | some r =>
    cases dc with
    | none =>
      exact dumps_strObj_ascii [(pys "access_token", a), (pys "refresh_token", r)]
    | some d =>
      exact dumps_strObj_ascii
        [(pys "access_token", a), (pys "refresh_token", r), (pys "device_code", d)]

theorem from_base64_to_base64 (t : Token) (h : ∀ x ∈ t.to_json, x < 128) :
    Token.to_base64 t = some (b64encode t.to_json) ∧
      Token.from_base64 (b64encode t.to_json) = Token.from_json t.to_json := by
  have he : utf8Encode t.to_json = some t.to_json := utf8Encode_ascii _ h
  constructor
  · unfold Token.to_base64
    rw [he]
    rfl
  · have hd := b64decode_encode t.to_json (fun x hx => by have := h x hx; omega)
    have hu := utf8Decode_ascii t.to_json h
    simp only [Token.from_base64, hd, hu]

/-! ## Theorems for the claims -/

/-- C1 (counterexample).  The claim says that when the first response is
`\x7b"error": "expired_token"\x7d`, the refresh succeeds, and the retried
response is again `\x7b"error": "expired_token"\x7d`, `_api_request` fails
with `AuthenticationError`.  It does not: in this concrete scenario the
engine performs the single refresh and retry (exactly two resource-endpoint
calls) and then *returns* the second expired-token body as the result —
the expiry sentinel is only checked on the first response, and the final
in-body check `data.get("result", True) is not True` does not fire on a
body with no `result` key, so no exception at all is raised. -/
theorem c1_counterexample :
    let run := apiRequest 2
      ⟨[Resp.http 200 expiredBody, Resp.http 200
          (Json.obj [(pys "access_token", Json.str (pys "NEW"))]),
        Resp.http 200 expiredBody],
       [], ⟨Json.str (pys "OLD"), Json.str (pys "RT"), Json.null⟩, none, []⟩
      (pys "get") (pys "get_settings") none [] []
    run.2 = Except.ok expiredBody ∧
    (run.1.calls.filter (fun c => c.url == RESOURCE_URL)).length = 2 := by
  decide

/-- C1 (amended).  For every authenticated request whose first response
body is `\x7b"error": "expired_token"\x7d` and whose retried response
(after a successful token refresh) is again that body, `_api_request`
makes exactly two Transport calls to the resource endpoint and one to the
token endpoint (no third resource call, no second refresh), installs the
refreshed token, and returns the second expired-token body as its result
without raising. -/
theorem c1_second_expiry_returns_body
    (fuel : Nat) (method func art rt na : PyStr) (dc : Json)
    (body : List (PyStr × Json)) (refreshResp : Json)
    (hfunc : func ≠ []) (hrt : rt ≠ [])
    (hnoexp : isExpired refreshResp = false)
    (hres : resultNotTrue refreshResp = false)
    (hacc : refreshResp.get (pys "access_token") = some (Json.str na)) :
    let run := apiRequest (fuel + 2)
      ⟨[Resp.http 200 expiredBody, Resp.http 200 refreshResp, Resp.http 200 expiredBody],
       [], ⟨Json.str art, Json.str rt, dc⟩, none, []⟩
      method func none [] body
    run.2 = Except.ok expiredBody ∧
    run.1.calls.map (fun c => c.url) = [RESOURCE_URL, TOKEN_URL, RESOURCE_URL] ∧
    run.1.token = ⟨Json.str na, Json.str rt, dc⟩ := by
  simp +decide [apiRequest, refreshWith, makeHttpRequest, setParam, resultCheck,
    wrap401, Json.truthy, hfunc, hrt, hnoexp, hres, hacc]

/-- C1 (witness for the amended theorem): the hypotheses are satisfiable
at a concrete scenario. -/
theorem c1_witness :
    let refreshResp := Json.obj [(pys "access_token", Json.str (pys "NEW"))]
    let run := apiRequest (0 + 2)
      ⟨[Resp.http 200 expiredBody, Resp.http 200 refreshResp, Resp.http 200 expiredBody],
       [], ⟨Json.str (pys "OLD"), Json.str (pys "RT"), Json.null⟩, none, []⟩
      (pys "get") (pys "get_settings") none [] []
    (pys "get_settings" ≠ [] ∧ pys "RT" ≠ []) ∧
    run.2 = Except.ok expiredBody ∧
    run.1.calls.map (fun c => c.url) = [RESOURCE_URL, TOKEN_URL, RESOURCE_URL] ∧
    run.1.token = ⟨Json.str (pys "NEW"), Json.str (pys "RT"), Json.null⟩ :=
  ⟨⟨by decide, by decide⟩,
   c1_second_expiry_returns_body 0 (pys "get") (pys "get_settings") (pys "OLD")
     (pys "RT") (pys "NEW") Json.null []
     (Json.obj [(pys "access_token", Json.str (pys "NEW"))])
     (by decide) (by decide) (by decide) (by decide) (by decide)⟩

/-- C2.  For every authenticated request whose first response body is the
expiry sentinel and whose refresh exchange succeeds with a new access
token, `_api_request` makes exactly two Transport calls to the resource
endpoint, the second carrying `access_token` equal to the new token, and
the registered refresh callback is invoked exactly once, with a Token
holding the new access token (and the old refresh credential). -/
theorem c2_refresh_retry_and_callback
    (fuel : Nat) (method func art rt na : PyStr) (dc : Json)
    (body : List (PyStr × Json)) (refreshResp : Json) (r2 : Resp)
    (f : Token → Except PyStr Unit)
    (hfunc : func ≠ []) (hrt : rt ≠ [])
    (hnoexp : isExpired refreshResp = false)
    (hres : resultNotTrue refreshResp = false)
    (hacc : refreshResp.get (pys "access_token") = some (Json.str na))
    (hcb : f ⟨Json.str na, Json.str rt, dc⟩ = Except.ok ()) :
    let run := apiRequest (fuel + 2)
      ⟨[Resp.http 200 expiredBody, Resp.http 200 refreshResp, r2],
       [], ⟨Json.str art, Json.str rt, dc⟩, some f, []⟩
      method func none [] body
    (run.1.calls.filter (fun c => c.url == RESOURCE_URL)).length = 2 ∧
    ((run.1.calls.filter (fun c => c.url == RESOURCE_URL)).get? 1).map
        (fun c => jsonLookup c.params (pys "access_token")) =
      some (some (Json.str na)) ∧
    run.1.cbLog = [⟨Json.str na, Json.str rt, dc⟩] := by
  have hne : (pys "access_token" == pys "func") = false := by decide
  cases r2 with
  | http code bodyJson =>
    simp +decide [apiRequest, refreshWith, makeHttpRequest, setParam, resultCheck,
      wrap401, Json.truthy, jsonLookup, List.lookup, hne, hfunc, hrt, hnoexp, hres,
      hacc, hcb]
    split_ifs <;> simp +decide [jsonLookup, List.lookup, hne]
  | netErr =>
    simp +decide [apiRequest, refreshWith, makeHttpRequest, setParam, resultCheck,
      wrap401, Json.truthy, jsonLookup, List.lookup, hne, hfunc, hrt, hnoexp, hres,
      hacc, hcb]

/-- C2 (witness): the hypotheses are satisfiable at a concrete scenario
with a concrete (non-raising) callback. -/
theorem c2_witness :
    let refreshResp := Json.obj [(pys "access_token", Json.str (pys "NEW"))]
    let f : Token → Except PyStr Unit := fun _ => Except.ok ()
    let run := apiRequest (0 + 2)
      ⟨[Resp.http 200 expiredBody, Resp.http 200 refreshResp, Resp.http 200 (Json.obj [])],
       [], ⟨Json.str (pys "OLD"), Json.str (pys "RT"), Json.null⟩, some f, []⟩
      (pys "get") (pys "get_settings") none [] []
    (pys "get_settings" ≠ [] ∧ pys "RT" ≠ []) ∧
    (run.1.calls.filter (fun c => c.url == RESOURCE_URL)).length = 2 ∧
    ((run.1.calls.filter (fun c => c.url == RESOURCE_URL)).get? 1).map
        (fun c => jsonLookup c.params (pys "access_token")) =
      some (some (Json.str (pys "NEW"))) ∧
    run.1.cbLog = [⟨Json.str (pys "NEW"), Json.str (pys "RT"), Json.null⟩] :=
  ⟨⟨by decide, by decide⟩,
   c2_refresh_retry_and_callback 0 (pys "get") (pys "get_settings") (pys "OLD")
     (pys "RT") (pys "NEW") Json.null []
     (Json.obj [(pys "access_token", Json.str (pys "NEW"))])
     (Resp.http 200 (Json.obj [])) (fun _ => Except.ok ())
     (by decide) (by decide) (by decide) (by decide) (by decide) rfl⟩

/-- C3.  For every client whose Token has `refresh_token = None` and
`device_code = None`, an authenticated request whose first response is the
expiry sentinel fails immediately with
`AuthenticationError("Session expired. No refresh token or device code
available.")`, performs exactly one Transport call (to the resource
endpoint only — no refresh exchange, no retry), and leaves the Token
unchanged. -/
theorem c3_no_credential_fails_immediately
    (fuel : Nat) (method func art : PyStr) (body : List (PyStr × Json))
    (hfunc : func ≠ []) :
    let run := apiRequest (fuel + 2)
      ⟨[Resp.http 200 expiredBody], [], ⟨Json.str art, Json.null, Json.null⟩, none, []⟩
      method func none [] body
    run.2 = Except.error (PyExn.authError
        (pys "Session expired. No refresh token or device code available.")) ∧
    run.1.calls.map (fun c => c.url) = [RESOURCE_URL] ∧
    run.1.token = ⟨Json.str art, Json.null, Json.null⟩ := by
  simp +decide [apiRequest, refreshWith, makeHttpRequest, setParam, resultCheck,
    wrap401, isExpired, resultNotTrue, Json.truthy, Json.get, jsonLookup, hfunc]

/-- C3 (witness): concrete instantiation. -/
theorem c3_witness :
    let run := apiRequest (0 + 2)
      ⟨[Resp.http 200 expiredBody], [],
       ⟨Json.str (pys "OLD"), Json.null, Json.null⟩, none, []⟩
      (pys "get") (pys "get_settings") none [] []
    (pys "get_settings" ≠ []) ∧
    run.2 = Except.error (PyExn.authError
        (pys "Session expired. No refresh token or device code available.")) ∧
    run.1.calls.map (fun c => c.url) = [RESOURCE_URL] ∧
    run.1.token = ⟨Json.str (pys "OLD"), Json.null, Json.null⟩ :=
  ⟨by decide,
   c3_no_credential_fails_immediately 0 (pys "get") (pys "get_settings")
     (pys "OLD") [] (by decide)⟩

/-- C8.  For every authenticated request whose Transport call yields an
HTTP error status, the failure is classified by status code: 5xx raises
`ServerError`, 4xx other than 401 raises `APIError` (carrying the
response), and 401 raises `AuthenticationError`. -/
theorem c8_status_classification
    (fuel code : Nat) (method func : PyStr) (tok : Token)
    (bodyJson : Json) (body : List (PyStr × Json))
    (cb : Option (Token → Except PyStr Unit)) :
    let run := apiRequest (fuel + 2)
      ⟨[Resp.http code bodyJson], [], tok, cb, []⟩ method func none [] body
    (500 ≤ code → code ≤ 599 → run.2 = Except.error (PyExn.serverError code)) ∧
    (400 ≤ code → code ≤ 499 → code ≠ 401 →
      run.2 = Except.error (PyExn.apiError (some code) (Json.str (pys "API error")))) ∧
    (code = 401 →
      run.2 = Except.error (PyExn.authError (pys "Invalid or expired token."))) := by
  refine ⟨?_, ?_, ?_⟩
  · intro h1 h2
    simp only [apiRequest, makeHttpRequest, List.head?_cons, List.tail_cons]
    rw [if_pos (show 400 ≤ code ∧ code ≤ 599 from ⟨by omega, h2⟩), if_pos h1]
    simp [wrap401]
  · intro h1 h2 h3
    simp only [apiRequest, makeHttpRequest, List.head?_cons, List.tail_cons]
    rw [if_pos (show 400 ≤ code ∧ code ≤ 599 from ⟨h1, by omega⟩),
      if_neg (show ¬ 500 ≤ code by omega)]
    simp [wrap401, h3]
  · intro h
    subst h
    simp +decide [apiRequest, makeHttpRequest, wrap401]

/-- C8 (witness): the three classifications at statuses 503, 403, 401. -/
theorem c8_witness :
    ((apiRequest (0 + 2)
        ⟨[Resp.http 503 Json.null], [], ⟨Json.str (pys "T"), Json.null, Json.null⟩,
         none, []⟩ (pys "get") (pys "f") none [] []).2 =
      Except.error (PyExn.serverError 503)) ∧
    ((apiRequest (0 + 2)
        ⟨[Resp.http 403 Json.null], [], ⟨Json.str (pys "T"), Json.null, Json.null⟩,
         none, []⟩ (pys "get") (pys "f") none [] []).2 =
      Except.error (PyExn.apiError (some 403) (Json.str (pys "API error")))) ∧
    ((apiRequest (0 + 2)
        ⟨[Resp.http 401 Json.null], [], ⟨Json.str (pys "T"), Json.null, Json.null⟩,
         none, []⟩ (pys "get") (pys "f") none [] []).2 =
      Except.error (PyExn.authError (pys "Invalid or expired token."))) :=
  ⟨(c8_status_classification 0 503 (pys "get") (pys "f")
      ⟨Json.str (pys "T"), Json.null, Json.null⟩ Json.null [] none).1
      (by decide) (by decide),
   (c8_status_classification 0 403 (pys "get") (pys "f")
      ⟨Json.str (pys "T"), Json.null, Json.null⟩ Json.null [] none).2.1
      (by decide) (by decide) (by decide),
   (c8_status_classification 0 401 (pys "get") (pys "f")
      ⟨Json.str (pys "T"), Json.null, Json.null⟩ Json.null [] none).2.2 rfl⟩

/-- C9.  For every successful refresh with a registered callback: the
callback is invoked with exactly the Token the client now holds (the new
token is installed before the callback runs), and if the callback raises,
its exception propagates uncaught while the new Token remains installed. -/
theorem c9_callback_exception_propagates
    (fuel : Nat) (art rt : PyStr) (dc : Json) (newAccess : Json)
    (refreshResp : Json) (f : Token → Except PyStr Unit) (payload : PyStr)
    (hrt : rt ≠ [])
    (hnoexp : isExpired refreshResp = false)
    (hres : resultNotTrue refreshResp = false)
    (hacc : refreshResp.get (pys "access_token") = some newAccess)
    (hcbf : f ⟨newAccess, Json.str rt, dc⟩ = Except.error payload) :
    let run := refreshAccessToken (fuel + 1)
      ⟨[Resp.http 200 refreshResp], [], ⟨Json.str art, Json.str rt, dc⟩, some f, []⟩
    run.2 = Except.error (PyExn.cbError payload) ∧
    run.1.token = ⟨newAccess, Json.str rt, dc⟩ ∧
    run.1.cbLog = [⟨newAccess, Json.str rt, dc⟩] := by
  simp +decide [refreshAccessToken, refreshWith, apiRequest, makeHttpRequest,
    setParam, resultCheck, wrap401, Json.truthy, hrt, hnoexp, hres, hacc, hcbf]

/-- C9 (witness): a concrete raising callback. -/
theorem c9_witness :
    let refreshResp := Json.obj [(pys "access_token", Json.str (pys "NEW"))]
    let f : Token → Except PyStr Unit := fun _ => Except.error (pys "boom")
    let run := refreshAccessToken (0 + 1)
      ⟨[Resp.http 200 refreshResp], [],
       ⟨Json.str (pys "OLD"), Json.str (pys "RT"), Json.null⟩, some f, []⟩
    (pys "RT" ≠ []) ∧
    run.2 = Except.error (PyExn.cbError (pys "boom")) ∧
    run.1.token = ⟨Json.str (pys "NEW"), Json.str (pys "RT"), Json.null⟩ ∧
    run.1.cbLog = [⟨Json.str (pys "NEW"), Json.str (pys "RT"), Json.null⟩] :=
  ⟨by decide,
   c9_callback_exception_propagates 0 (pys "OLD") (pys "RT") Json.null
     (Json.str (pys "NEW")) (Json.obj [(pys "access_token", Json.str (pys "NEW"))])
     (fun _ => Except.error (pys "boom")) (pys "boom")
     (by decide) (by decide) (by decide) (by decide) rfl⟩

/-- C10.  For every successful automatic refresh (via either credential),
the installed Token keeps the pre-refresh `refresh_token` and
`device_code` exactly — anything in the refresh response besides its
`access_token` is discarded — and only `access_token` changes, taking the
response's value. -/
theorem c10_refresh_preserves_credentials (fuel : Nat) :
    (∀ (at0 : Json) (rt : PyStr) (dc newAccess refreshResp : Json),
      rt ≠ [] →
      isExpired refreshResp = false →
      resultNotTrue refreshResp = false →
      refreshResp.get (pys "access_token") = some newAccess →
      let run := refreshAccessToken (fuel + 1)
        ⟨[Resp.http 200 refreshResp], [], ⟨at0, Json.str rt, dc⟩, none, []⟩
      run.1.token = ⟨newAccess, Json.str rt, dc⟩ ∧ run.2 = Except.ok refreshResp) ∧
    (∀ (at0 rt0 : Json) (dcs : PyStr) (newAccess refreshResp : Json),
      rt0.truthy = false →
      dcs ≠ [] →
      isExpired refreshResp = false →
      resultNotTrue refreshResp = false →
      refreshResp.get (pys "access_token") = some newAccess →
      let run := refreshAccessToken (fuel + 1)
        ⟨[Resp.http 200 refreshResp], [], ⟨at0, rt0, Json.str dcs⟩, none, []⟩
      run.1.token = ⟨newAccess, rt0, Json.str dcs⟩ ∧ run.2 = Except.ok refreshResp) := by
  constructor
  · intro at0 rt dc newAccess refreshResp hrt hnoexp hres hacc
    simp +decide [refreshAccessToken, refreshWith, apiRequest, makeHttpRequest,
      setParam, resultCheck, wrap401, Json.truthy, hrt, hnoexp, hres, hacc]
  · intro at0 rt0 dcs newAccess refreshResp hrt0 hdcs hnoexp hres hacc
    have hdc : (Json.str dcs).truthy = true := by simp [Json.truthy, hdcs]
    simp +decide [refreshAccessToken, refreshWith, apiRequest, makeHttpRequest,
      setParam, resultCheck, wrap401, hrt0, hdc, hnoexp, hres, hacc]

/-- C10 (witness): both refresh paths at concrete inputs, with a refresh
response that also carries `refresh_token` and `device_code` keys (which
are discarded). -/
theorem c10_witness :
    let refreshResp := Json.obj
      [(pys "access_token", Json.str (pys "NEW")),
       (pys "refresh_token", Json.str (pys "IGNORED")),
       (pys "device_code", Json.str (pys "ALSO_IGNORED"))]
    ((pys "RT" ≠ []) ∧
      (refreshAccessToken (0 + 1)
        ⟨[Resp.http 200 refreshResp], [],
         ⟨Json.str (pys "OLD"), Json.str (pys "RT"), Json.null⟩, none, []⟩).1.token =
        ⟨Json.str (pys "NEW"), Json.str (pys "RT"), Json.null⟩) ∧
    ((pys "DC" ≠ []) ∧
      (refreshAccessToken (0 + 1)
        ⟨[Resp.http 200 refreshResp], [],
         ⟨Json.str (pys "OLD"), Json.null, Json.str (pys "DC")⟩, none, []⟩).1.token =
        ⟨Json.str (pys "NEW"), Json.null, Json.str (pys "DC")⟩) :=
  ⟨⟨by decide,
    ((c10_refresh_preserves_credentials 0).1 (Json.str (pys "OLD")) (pys "RT")
      Json.null (Json.str (pys "NEW")) _
      (by decide) (by decide) (by decide) (by decide)).1⟩,
   ⟨by decide,
    ((c10_refresh_preserves_credentials 0).2 (Json.str (pys "OLD")) Json.null
      (pys "DC") (Json.str (pys "NEW")) _
      (by decide) (by decide) (by decide) (by decide) (by decide)).1⟩⟩

/-- C5.  For every Token with a string `access_token` (as the dataclass
annotations require) and arbitrary (JSON-shaped) optional fields, the
serialized dictionary's key list is exactly: `access_token` always, then
`refresh_token` exactly when that field is not `None`, then `device_code`
exactly when that field is not `None` — and no other keys; the
`access_token` entry carries the field's value. -/
theorem c5_to_dict_keys (a : PyStr) (rt dc : Json) :
    (Token.to_dict ⟨Json.str a, rt, dc⟩).map Prod.fst =
      pys "access_token" ::
        ((if rt.isNull then [] else [pys "refresh_token"]) ++
         (if dc.isNull then [] else [pys "device_code"])) ∧
    jsonLookup (Token.to_dict ⟨Json.str a, rt, dc⟩) (pys "access_token") =
      some (Json.str a) := by
  have h1 : (pys "access_token" == pys "refresh_token") = false := by decide
  have h2 : (pys "access_token" == pys "device_code") = false := by decide
  cases rt <;> cases dc <;>
    simp +decide [Token.to_dict, jsonLookup, List.lookup, Json.isNull, List.filter,
      h1, h2]

/-- C7 (counterexample).  The claim says no string representation of a
Token leaks a full secret value.  `Token.__str__` returns the raw JSON
serialization: for a token whose access token is the 12-character secret
`SECRETVALUE1`, the `str()` output contains the full secret. -/
theorem c7_counterexample :
    let t : Token := ⟨Json.str (pys "SECRETVALUE1"), Json.null, Json.null⟩
    strContains (Token.strPy t) (pys "SECRETVALUE1") = true ∧
    5 < (pys "SECRETVALUE1").length := by
  decide

/-- C7 (amended).  `Token.__repr__` (only) masks: for every Token with
string-typed fields it renders each present secret as at most its first
five code points followed by `****` and absent fields as `None`, in the
exact shape `Token(access_token=…, refresh_token=…, device_code=…)`;
`Token.__str__`, by contrast, is the raw JSON serialization
(see the counterexample). -/
theorem c7_repr_masks_secrets (a : PyStr) (rt dc : Option PyStr) :
    Token.reprPy (Token.ofStrings a rt dc) =
      some (pys "Token(access_token=" ++ (a.take 5 ++ pys "****") ++
        pys ", refresh_token=" ++
        rt.elim (pys "None") (fun s => s.take 5 ++ pys "****") ++
        pys ", device_code=" ++
        dc.elim (pys "None") (fun s => s.take 5 ++ pys "****") ++ pys ")") := by
  cases rt <;> cases dc <;> rfl

/-- C4 (counterexample): the serialization round trip is not the identity
on every valid Token.  Python strings may contain surrogate code points;
for `access_token = "😀"` (a high surrogate directly followed
by a low surrogate — a perfectly constructible `str`), `json.dumps`
writes the two `\uXXXX` escapes and `json.loads` recombines them into the
single astral code point U+1F600, so `from_json(to_json(T))` returns a
*different* token. -/
theorem c4_counterexample :
    Token.from_json (Token.to_json (Token.ofStrings [55357, 56832] none none)) ≠
      Except.ok (Token.ofStrings [55357, 56832] none none) ∧
    Token.from_json (Token.to_json (Token.ofStrings [55357, 56832] none none)) =
      Except.ok (Token.ofStrings [128512] none none) := by
  constructor
  · decide
  · decide

/-- C4 (amended): for every valid Token whose string fields are
JSON-safe — no adjacent high-and-low surrogate pair (automatic for any
string without surrogates) — the round trip through `to_json`/`from_json`
is the identity, and `to_base64` succeeds with `from_base64` inverting
it. -/
theorem c4_roundtrip_safe (a : PyStr) (rt dc : Option PyStr)
    (ha : jsonSafe a = true)
    (hrt : ∀ s, rt = some s → jsonSafe s = true)
    (hdc : ∀ s, dc = some s → jsonSafe s = true) :
    Token.from_json (Token.to_json (Token.ofStrings a rt dc)) =
      Except.ok (Token.ofStrings a rt dc) ∧
    ∃ e, Token.to_base64 (Token.ofStrings a rt dc) = some e ∧
      Token.from_base64 e = Except.ok (Token.ofStrings a rt dc) := by
  have hjson := token_from_json_to_json a rt dc ha hrt hdc
  obtain ⟨henc, hdec⟩ := from_base64_to_base64 (Token.ofStrings a rt dc)
    (to_json_ascii a rt dc)
  exact ⟨hjson, b64encode (Token.to_json (Token.ofStrings a rt dc)),
    henc, hdec.trans hjson⟩

/-- Witness for C4 at a concrete token carrying all three fields. -/
theorem c4_witness :
    Token.from_json (Token.to_json
        (Token.ofStrings (pys "ABC") (some (pys "r1")) (some (pys "d2")))) =
      Except.ok (Token.ofStrings (pys "ABC") (some (pys "r1")) (some (pys "d2"))) ∧
    ∃ e, Token.to_base64
        (Token.ofStrings (pys "ABC") (some (pys "r1")) (some (pys "d2"))) = some e ∧
      Token.from_base64 e =
        Except.ok (Token.ofStrings (pys "ABC") (some (pys "r1")) (some (pys "d2"))) :=
  c4_roundtrip_safe (pys "ABC") (some (pys "r1")) (some (pys "d2"))
    (by decide) (fun s hs => by cases hs; decide) (fun s hs => by cases hs; decide)

/-- C6: malformed input is rejected with `TokenError` and nothing else:
a string that is not well-formed JSON makes `from_json` fail with
`TokenError`; a string that decodes to a JSON object missing the
`access_token` key or carrying a key other than the three field names
makes `from_json` fail with `TokenError`; and a string that is not valid
base64 (`binascii.Error` / non-ASCII `UnicodeEncodeError`, both
`ValueError`s) makes `from_base64` fail with `TokenError`.  The return
type records that no other exception can escape. -/
theorem c6_malformed_rejected :
    (∀ s : PyStr, jsonLoads s = none →
      Token.from_json s = Except.error TokenError.mk) ∧
    (∀ (s : PyStr) (kvs : List (PyStr × Json)),
      jsonLoads s = some (Json.obj kvs) →
      (hasKeyKV kvs (pys "access_token") = false ∨
        ∃ p ∈ kvs, p.1 ≠ pys "access_token" ∧ p.1 ≠ pys "refresh_token" ∧
          p.1 ≠ pys "device_code") →
      Token.from_json s = Except.error TokenError.mk) ∧
    (∀ s : PyStr, b64decode s = none →
      Token.from_base64 s = Except.error TokenError.mk) := by
  refine ⟨fun s hs => ?_, fun s kvs hs hbad => ?_, fun s hs => ?_⟩
  · simp only [Token.from_json, hs]
  · simp only [Token.from_json, hs]
    rcases hbad with hk | ⟨p, hp, h1, h2, h3⟩
    · simp only [Token.from_dict, hk, Bool.false_and, Bool.false_eq_true, if_false]
    · have hall : kvs.all (fun p => p.1 == pys "access_token" ||
          p.1 == pys "refresh_token" || p.1 == pys "device_code") = false := by
        rw [List.all_eq_false]
        exact ⟨p, hp, by simp [h1, h2, h3]⟩
      simp only [Token.from_dict, hall, Bool.and_false, Bool.false_eq_true, if_false]
  · simp only [Token.from_base64, hs]

/-- Witness for C6: a non-JSON string, a JSON object with a foreign key,
and a non-base64 string are each rejected with `TokenError`. -/
theorem c6_witness :
    Token.from_json (pys "notjson") = Except.error TokenError.mk ∧
    Token.from_json (pys "\x7b\"foo\": \"bar\"\x7d") = Except.error TokenError.mk ∧
    Token.from_base64 (pys "a") = Except.error TokenError.mk :=
  ⟨c6_malformed_rejected.1 (pys "notjson") (by decide),
   c6_malformed_rejected.2.1 (pys "\x7b\"foo\": \"bar\"\x7d")
     [(pys "foo", Json.str (pys "bar"))] (by decide)
     (Or.inr ⟨(pys "foo", Json.str (pys "bar")), by decide, by decide, by decide,
       by decide⟩),
   c6_malformed_rejected.2.2 (pys "a") (by decide)⟩
